import Mathlib

/-!
# Import resolution in `crates/wasi/c-example/run-cube.c`

A shallow embedding of the C example program that loads `cube.wasm`,
instantiates the WASI module, matches the guest's imports by name against the
WASI module's exports and instantiates the guest.

* C vectors (`wasm_*_vec_t`) are lists; `v.size` is the length of the list and
  `v.data[k]` is a checked read: a read or a write past the end is undefined
  behaviour in C and is the outcome `Flow.fault` here.
* C pointers that may be `NULL` are `Option` values, `none` being `NULL`.
* Everything the program obtains from the engine or the file system is a field
  of `World`; the program's observable behaviour is the list of `Event`s it
  emits together with its return code.
-/

namespace RunCube

/-! ## Data model (the part of `wasm.h` the program uses) -/

/-- Modelled from the spec: `wasm_byte_vec_t` of `wasm.h`, a sized byte
sequence. The bytes are natural numbers (values of `unsigned char`); the `size`
field of the C struct is the length of `data`. -/
structure wasm_byte_vec_t where
  data : List Nat
  deriving DecidableEq, Repr

/-- The `size` field of a byte vector. -/
def wasm_byte_vec_t.size (v : wasm_byte_vec_t) : Nat := v.data.length

/-- Modelled from the spec: `wasm_name_t` of `wasm.h` is a byte vector. -/
abbrev wasm_name_t := wasm_byte_vec_t

/-- Modelled from the spec: `wasm_externkind_t` of `wasm.h`, the four kinds
named in `print_externtype`. -/
inductive wasm_externkind_t where
  | WASM_EXTERN_FUNC
  | WASM_EXTERN_GLOBAL
  | WASM_EXTERN_TABLE
  | WASM_EXTERN_MEMORY
  deriving DecidableEq, Repr

/-- Modelled from the spec: `wasm_externtype_t` of `wasm.h`; the resolution
code never inspects it, so only the kind is kept. -/
structure wasm_externtype_t where
  kind : wasm_externkind_t
  deriving DecidableEq, Repr

/-- Modelled from the spec: `wasm_importtype_t` of `wasm.h`: module namespace,
name and extern type of a declared import. -/
structure wasm_importtype_t where
  module_name : wasm_name_t
  name : wasm_name_t
  type : wasm_externtype_t
  deriving DecidableEq, Repr

/-- Modelled from the spec: `wasm_exporttype_t` of `wasm.h`: name and extern
type of a declared export. -/
structure wasm_exporttype_t where
  name : wasm_name_t
  type : wasm_externtype_t
  deriving DecidableEq, Repr

/-- Modelled from the spec: `wasm_extern_t` of `wasm.h`, a runtime handle with
its kind. A `wasm_extern_t*` is an `Option wasm_extern_t`. -/
structure wasm_extern_t where
  kind : wasm_externkind_t
  handle : Nat
  deriving DecidableEq, Repr

/-- Modelled from the spec: `wasm_func_t` of `wasm.h`, the function view of an
extern. -/
structure wasm_func_t where
  handle : Nat
  deriving DecidableEq, Repr

/-- Modelled from the spec: `wasm_module_t` of `wasm.h`; the program reads its
list of import descriptors (`wasm_module_imports`) and of export descriptors
(`wasm_module_exports`). -/
structure wasm_module_t where
  imports : List wasm_importtype_t
  exports : List wasm_exporttype_t
  deriving DecidableEq, Repr

/-- Modelled from the spec: `wasm_instance_t` of `wasm.h`; the program reads
its extern vector (`wasm_instance_exports`). -/
structure wasm_instance_t where
  exports : List (Option wasm_extern_t)
  deriving DecidableEq, Repr

/-- Modelled from the spec: `wasm_importtype_name` of `wasm.h`. -/
def wasm_importtype_name (it : wasm_importtype_t) : wasm_name_t := it.name

/-- Modelled from the spec: `wasm_exporttype_name` of `wasm.h`. -/
def wasm_exporttype_name (et : wasm_exporttype_t) : wasm_name_t := et.name

/-- Modelled from the spec: `wasm_extern_as_func` of `wasm.h`: the function
view of an extern, `NULL` when the extern is not a function (a `NULL` argument
is taken to give `NULL`). -/
def wasm_extern_as_func : Option wasm_extern_t → Option wasm_func_t
  | some e =>
    match e.kind with
    | .WASM_EXTERN_FUNC => some ⟨e.handle⟩
    | _ => none
  | none => none

/-- The name whose bytes are the character codes of an ASCII string. -/
def name_of (s : String) : wasm_name_t := ⟨s.toList.map Char.toNat⟩

/-! ## `is_name_same` (lines 86-89) -/

/-- The C library's `memcmp s1 s2 n`: compares the first `n` bytes, returning
a negative, zero or positive number. Reading past the end of a buffer is
undefined in C; `is_name_same` never does so. -/
def memcmp : List Nat → List Nat → Nat → Int
  | _, _, 0 => 0
  | x :: xs, y :: ys, n + 1 =>
    if x < y then -1 else if y < x then 1 else memcmp xs ys n
  | _, _, _ + 1 => 0

/-- Lines 86-89:
`if (name->size != other->size) return false;`
`return memcmp(name->data, other->data, other->size) == 0;` -/
def is_name_same (name other : wasm_name_t) : Bool :=
  if name.size ≠ other.size then false
  else memcmp name.data other.data other.size == 0

/-! ## Observable behaviour -/

/-- The arrays the resolution code indexes. -/
inductive Arr where
  | import_types
  | export_types
  | wasi_exports
  | imports
  deriving DecidableEq, Repr

/-- Lines 82-84, the bytes `print_name` writes:
`printf("\"%.*s\"", (int)name->size, name->data)` gives a quote, the bytes of
the name up to its size or up to its first NUL byte when one comes before, and
a quote (for a size that fits `int`). -/
def print_name (name : wasm_name_t) : List Nat :=
  34 :: (name.data.takeWhile fun b => b != 0) ++ [34]

/-- What a run does, in program order: array accesses of the resolution code,
calls of `is_name_same`, output, and calls of `wasm_instance_new` (with the
module and the imports argument, `none` for `NULL`). The event `print_name`
is the call of `print_name` with the name it is given; what that call writes
is `RunCube.print_name` of the name. -/
inductive Event where
  | load (a : Arr) (idx : Nat)
  | store (a : Arr) (idx : Nat)
  | compare (name other : wasm_name_t)
  | printf (s : String)
  | print_name (name : wasm_name_t)
  | instance_new (m : wasm_module_t) (imports : Option (List (Option wasm_extern_t)))
  deriving DecidableEq, Repr

/-- How a piece of `main` ends: it falls through to the next statement with a
value (`next`), `main` returns (`exit`), or the behaviour is undefined because
of an access out of bounds (`fault`). Each carries the events emitted. -/
inductive Flow (α : Type) where
  | next (a : α) (trace : List Event)
  | exit (code : Int) (trace : List Event)
  | fault (trace : List Event)
  deriving DecidableEq, Repr

/-- The events of a flow. -/
def Flow.trace {α : Type} : Flow α → List Event
  | .next _ t => t
  | .exit _ t => t
  | .fault t => t

/-- The same flow after the events `t`. -/
def Flow.prepend {α : Type} (t : List Event) : Flow α → Flow α
  | .next a u => .next a (t ++ u)
  | .exit c u => .exit c (t ++ u)
  | .fault u => .fault (t ++ u)

/-- Sequential composition: the statements `f` run after `x` falls through. -/
def Flow.bind {α β : Type} (x : Flow α) (f : α → Flow β) : Flow β :=
  match x with
  | .next a t => (f a).prepend t
  | .exit c t => .exit c t
  | .fault t => .fault t

/-- The read `a.data[idx]`. -/
def array_load {α : Type} (a : Arr) (xs : List α) (idx : Nat) : Flow α :=
  match xs[idx]? with
  | some v => .next v [.load a idx]
  | none => .fault [.load a idx]

/-- The write `a[idx] = v`. -/
def array_store {α : Type} (a : Arr) (xs : List α) (idx : Nat) (v : α) : Flow (List α) :=
  if idx < xs.length then .next (xs.set idx v) [.store a idx]
  else .fault [.store a idx]

/-! ## The import-resolution loop (lines 156-171) -/

/-- Lines 160-164, the loop `for (size_t j = 0; j < export_types.size; ++j)`
run over the indices `js` that are left:
`if (!is_name_same(import_name, wasm_exporttype_name(export_types.data[j]))) continue;`
`imports[i] = wasi_exports.data[j]; break;` -/
def inner_loop (import_name : wasm_name_t) (export_types : List wasm_exporttype_t)
    (wasi_exports : List (Option wasm_extern_t)) (i : Nat)
    (imports : List (Option wasm_extern_t)) : List Nat → Flow (List (Option wasm_extern_t))
  | [] => .next imports []
  | j :: js =>
    (array_load .export_types export_types j).bind fun et =>
    (Flow.next () [.compare import_name (wasm_exporttype_name et)]).bind fun _ =>
    if !is_name_same import_name (wasm_exporttype_name et) then
      inner_loop import_name export_types wasi_exports i imports js
    else
      (array_load .wasi_exports wasi_exports j).bind fun v =>
      array_store .imports imports i v

/-- The report printed for an import that was not found (lines 166-168). -/
def not_found_report (import_name : wasm_name_t) : List Event :=
  [.printf "> Import ", .print_name import_name, .printf " not found\n"]

/-- Lines 165-170, the end of the loop body: the test `if (!imports[i])` with
its report `> Import "name" not found` and `return 1`. -/
def check_import (import_name : wasm_name_t) (i : Nat)
    (imports : List (Option wasm_extern_t)) : Flow (List (Option wasm_extern_t)) :=
  (array_load .imports imports i).bind fun p =>
  match p with
  | none => .exit 1 (not_found_report import_name)
  | some _ => .next imports []

/-- Lines 158-170, the body of the loop over the imports for index `i`:
`import_name = wasm_importtype_name(import_types.data[i])`, `imports[i] = NULL`,
the scan of the exports, then the test of `imports[i]`. -/
def import_step (import_types : List wasm_importtype_t) (export_types : List wasm_exporttype_t)
    (wasi_exports : List (Option wasm_extern_t)) (i : Nat)
    (imports : List (Option wasm_extern_t)) : Flow (List (Option wasm_extern_t)) :=
  (array_load .import_types import_types i).bind fun it =>
  let import_name := wasm_importtype_name it
  (array_store .imports imports i none).bind fun imports =>
  (inner_loop import_name export_types wasi_exports i imports
    (List.range export_types.length)).bind fun imports =>
  check_import import_name i imports

/-- Line 157, the loop `for (size_t i = 0; i < import_types.size; ++i)` run
over the indices that are left. -/
def outer_loop (import_types : List wasm_importtype_t) (export_types : List wasm_exporttype_t)
    (wasi_exports : List (Option wasm_extern_t)) :
    List (Option wasm_extern_t) → List Nat → Flow (List (Option wasm_extern_t))
  | imports, [] => .next imports []
  | imports, i :: is =>
    (import_step import_types export_types wasi_exports i imports).bind fun imports =>
    outer_loop import_types export_types wasi_exports imports is

/-- Lines 156-171: `imports = malloc(sizeof(..) * import_types.size)` followed
by the loop over the imports. The allocation is taken to succeed; its slots
are written before they are read, so their initial content is immaterial. -/
def resolve_imports (import_types : List wasm_importtype_t)
    (export_types : List wasm_exporttype_t)
    (wasi_exports : List (Option wasm_extern_t)) : Flow (List (Option wasm_extern_t)) :=
  outer_loop import_types export_types wasi_exports
    (List.replicate import_types.length none) (List.range import_types.length)

/-! ## `main` (lines 91-207) -/

/-- Everything `main` obtains from outside: the file `cube.wasm` (`none` when
`fopen` fails), whether `fread` delivers the bytes, and the engine's
`wasm_module_new`, `wasmtime_wasi_module_new` and `wasm_instance_new`. -/
structure World where
  file : Option (List Nat)
  fread_ok : Bool
  wasm_module_new : List Nat → Option wasm_module_t
  wasmtime_wasi_module_new : Option wasm_module_t
  wasm_instance_new :
    wasm_module_t → Option (List (Option wasm_extern_t)) → Option wasm_instance_t

/-- The value of `fread(binary.data, file_size, 1, file)`: the number of whole
items of `file_size` bytes read, which is 0 for an empty file. -/
def fread_items (w : World) (bytes : List Nat) : Nat :=
  if bytes.length = 0 then 0 else if w.fread_ok then 1 else 0

/-- Lines 92-148: load and compile `cube.wasm`, get and instantiate the WASI
module, extract its exports. Falls through with the guest module, the WASI
module and the WASI instance's extern vector. -/
def setup (w : World) :
    Flow (wasm_module_t × wasm_module_t × List (Option wasm_extern_t)) :=
  (Flow.next () [.printf "Initializing...\n", .printf "Loading binary...\n"]).bind fun _ =>
  (match w.file with
    | none => Flow.exit 1 [.printf "> Error loading module!\n"]
    | some bytes => .next bytes []).bind fun bytes =>
  (if fread_items w bytes ≠ 1 then Flow.exit 1 [.printf "> Error loading module!\n"]
    else .next () []).bind fun _ =>
  (Flow.next () [.printf "Compiling module...\n"]).bind fun _ =>
  (match w.wasm_module_new bytes with
    | none => Flow.exit 1 [.printf "> Error compiling module!\n"]
    | some m => .next m []).bind fun module =>
  (Flow.next () [.printf "WASI module...\n"]).bind fun _ =>
  (match w.wasmtime_wasi_module_new with
    | none => Flow.exit 1 [.printf "> Error getting WASI module!\n"]
    | some m => .next m []).bind fun wasi_module =>
  (Flow.next () [.printf "Instantiating WASI module...\n",
    .instance_new wasi_module none]).bind fun _ =>
  (match w.wasm_instance_new wasi_module none with
    | none => Flow.exit 1 [.printf "> Error instantiating WASI module!\n"]
    | some inst => .next inst []).bind fun wasi_instance =>
  (Flow.next () [.printf "Extracting WASI export...\n"]).bind fun _ =>
  let wasi_exports := wasi_instance.exports
  if wasi_exports.length = 0 then
    .exit 1 [.printf "> Error accessing WASI exports!\n"]
  else
    .next (module, wasi_module, wasi_exports) []

/-- Lines 173-207: the check that the WASI export at position 0 is a function,
the instantiation of the guest with the imports table, and shutdown. -/
def finish (w : World) (module : wasm_module_t) (wasi_exports : List (Option wasm_extern_t))
    (imports : List (Option wasm_extern_t)) : Flow Unit :=
  (array_load .wasi_exports wasi_exports 0).bind fun e =>
  match wasm_extern_as_func e with
  | none => .exit 1 [.printf "> Error accessing WASI export!\n"]
  | some _ =>
    (Flow.next () [.printf "Instantiating module...\n",
      .instance_new module (some imports)]).bind fun _ =>
    match w.wasm_instance_new module (some imports) with
    | none => .exit 1 [.printf "> Error instantiating module!\n"]
    | some _ => .exit 0 [.printf "Shutting down...\n", .printf "Done.\n"]

/-- Lines 91-207. -/
def main (w : World) : Flow Unit :=
  (setup w).bind fun (module, wasi_module, wasi_exports) =>
  (Flow.next () [.printf "Matching WASI imports...\n"]).bind fun _ =>
  (resolve_imports module.imports wasi_module.exports wasi_exports).bind fun imports =>
  finish w module wasi_exports imports

/-! ## Vocabulary of the statements -/

/-- Whether the export at index `j` has the same name as `import_name`
(`false` past the end of the export descriptors). -/
def export_matches (import_name : wasm_name_t) (export_types : List wasm_exporttype_t)
    (j : Nat) : Bool :=
  match export_types[j]? with
  | some et => is_name_same import_name (wasm_exporttype_name et)
  | none => false

/-- No export has the same name as `import_name`. -/
def no_match (import_name : wasm_name_t) (export_types : List wasm_exporttype_t) : Prop :=
  ∀ j, j < export_types.length → export_matches import_name export_types j = false

/-- Index `j` is the smallest export index whose name is the same as
`import_name`. -/
def is_first_match (import_name : wasm_name_t) (export_types : List wasm_exporttype_t)
    (j : Nat) : Prop :=
  export_matches import_name export_types j = true ∧
    ∀ k, k < j → export_matches import_name export_types k = false

/-- The extern value at the first export position whose name matches is the
non-null `v`. -/
def resolved_to (import_name : wasm_name_t) (export_types : List wasm_exporttype_t)
    (wasi_exports : List (Option wasm_extern_t)) (v : wasm_extern_t) : Prop :=
  ∃ j, is_first_match import_name export_types j ∧ wasi_exports[j]? = some (some v)

/-- Import `x` is resolved: its first name-matching export position holds a
non-null extern value. -/
def import_resolved (import_types : List wasm_importtype_t)
    (export_types : List wasm_exporttype_t) (wasi_exports : List (Option wasm_extern_t))
    (x : Nat) : Prop :=
  ∃ it v, import_types[x]? = some it ∧
    resolved_to (wasm_importtype_name it) export_types wasi_exports v

/-- Import `x` is unresolved: either no export has its name, or the extern
value at its first name-matching export position is `NULL`. -/
def import_unresolved (import_types : List wasm_importtype_t)
    (export_types : List wasm_exporttype_t) (wasi_exports : List (Option wasm_extern_t))
    (x : Nat) : Prop :=
  ∃ it, import_types[x]? = some it ∧
    (no_match (wasm_importtype_name it) export_types ∨
      ∃ j, is_first_match (wasm_importtype_name it) export_types j ∧
        wasi_exports[j]? = some none)

/-- The scan for import `x` reads `wasi_exports` out of bounds: its first
name-matching export position is past the end of the extern vector. -/
def import_out_of_bounds (import_types : List wasm_importtype_t)
    (export_types : List wasm_exporttype_t) (wasi_exports : List (Option wasm_extern_t))
    (x : Nat) : Prop :=
  ∃ it j, import_types[x]? = some it ∧
    is_first_match (wasm_importtype_name it) export_types j ∧ wasi_exports[j]? = none

instance (import_name : wasm_name_t) (export_types : List wasm_exporttype_t) :
    Decidable (no_match import_name export_types) := by
  unfold no_match; infer_instance

instance (import_name : wasm_name_t) (export_types : List wasm_exporttype_t) (j : Nat) :
    Decidable (is_first_match import_name export_types j) := by
  unfold is_first_match; infer_instance

/-- The WASI export at position 0 is a function (the test of lines 176-177
passes). -/
def first_export_is_func (wasi_exports : List (Option wasm_extern_t)) : Bool :=
  match wasi_exports[0]? with
  | some e => (wasm_extern_as_func e).isSome
  | none => false

/-- Whether an event is a call of `is_name_same`. -/
def Event.is_compare : Event → Bool
  | .compare _ _ => true
  | _ => false

/-- Whether an event is the instantiation of a module with an imports table
(the guest's instantiation; the WASI module is instantiated with `NULL`). -/
def Event.is_guest_instantiation : Event → Bool
  | .instance_new _ (some _) => true
  | _ => false

/-- An array access lies within the array's bounds, the sizes being those of
`import_types` (and of `imports`), `export_types` and `wasi_exports`. Events
that are not array accesses are within bounds. -/
def Event.in_bounds (n_imports n_exports n_externs : Nat) : Event → Prop
  | .load .import_types i => i < n_imports
  | .load .export_types j => j < n_exports
  | .load .wasi_exports j => j < n_externs
  | .load .imports i => i < n_imports
  | .store .imports i => i < n_imports
  | .store _ _ => False
  | _ => True

/-- What the scan of the exports for import `i` over the export indices `js`
may do: read `export_types` and `wasi_exports` at an index of `js`, compare
names, and write `imports[i]`. -/
def Event.of_scan (js : List Nat) (i : Nat) : Event → Prop
  | .load .export_types k => k ∈ js
  | .load .wasi_exports k => k ∈ js
  | .store .imports x => x = i
  | .compare _ _ => True
  | _ => False

/-- What the resolution of the imports with indices `is` may do, `m` being the
number of export descriptors: read `import_types` and read and write `imports`
at an index of `is`, read `export_types` and `wasi_exports` below `m`, compare
names and print. It never instantiates a module. -/
def Event.of_resolution (is : List Nat) (m : Nat) : Event → Prop
  | .load .import_types x => x ∈ is
  | .load .imports x => x ∈ is
  | .store .imports x => x ∈ is
  | .load .export_types k => k < m
  | .load .wasi_exports k => k < m
  | .compare _ _ => True
  | .printf _ => True
  | .print_name _ => True
  | _ => False

/-- The events of lines 92-142 in a run that gets as far as extracting the
WASI exports. -/
def setup_events (wasi_module : wasm_module_t) : List Event :=
  [.printf "Initializing...\n", .printf "Loading binary...\n",
   .printf "Compiling module...\n", .printf "WASI module...\n",
   .printf "Instantiating WASI module...\n", .instance_new wasi_module none,
   .printf "Extracting WASI export...\n"]

/-- The events before the resolution loop in a run that reaches it. -/
def prologue (wasi_module : wasm_module_t) : List Event :=
  setup_events wasi_module ++ [.printf "Matching WASI imports...\n"]

/-- Main gets as far as extracting the WASI exports (line 144) with guest
module `guest`, WASI module `wasi_module` and WASI instance `wasi_instance`. -/
def reaches_exports (w : World) (guest wasi_module : wasm_module_t)
    (wasi_instance : wasm_instance_t) : Prop :=
  ∃ bytes, w.file = some bytes ∧ fread_items w bytes = 1 ∧
    w.wasm_module_new bytes = some guest ∧
    w.wasmtime_wasi_module_new = some wasi_module ∧
    w.wasm_instance_new wasi_module none = some wasi_instance

/-- Main reaches the import resolution (line 150) with guest module `guest`,
WASI module `wasi_module` and WASI instance `wasi_instance`. -/
def reaches_resolution (w : World) (guest wasi_module : wasm_module_t)
    (wasi_instance : wasm_instance_t) : Prop :=
  reaches_exports w guest wasi_module wasi_instance ∧ wasi_instance.exports.length ≠ 0

/-! ## Example data -/

/-- The import `("wasi_unstable", "fd_write")`, a function. -/
def import_fd_write : wasm_importtype_t :=
  ⟨name_of "wasi_unstable", name_of "fd_write", ⟨.WASM_EXTERN_FUNC⟩⟩

/-- The import `("wasi_unstable", "proc_exit")`, a function. -/
def import_proc_exit : wasm_importtype_t :=
  ⟨name_of "wasi_unstable", name_of "proc_exit", ⟨.WASM_EXTERN_FUNC⟩⟩

/-- The import `("env", "fd_write")`, declared as a global. -/
def import_env_fd_write : wasm_importtype_t :=
  ⟨name_of "env", name_of "fd_write", ⟨.WASM_EXTERN_GLOBAL⟩⟩

/-- The export `"fd_write"`, a function. -/
def export_fd_write : wasm_exporttype_t := ⟨name_of "fd_write", ⟨.WASM_EXTERN_FUNC⟩⟩

/-- The export `"proc_exit"`, a function. -/
def export_proc_exit : wasm_exporttype_t := ⟨name_of "proc_exit", ⟨.WASM_EXTERN_FUNC⟩⟩

/-- The export `"args_get"`, a function. -/
def export_args_get : wasm_exporttype_t := ⟨name_of "args_get", ⟨.WASM_EXTERN_FUNC⟩⟩

/-- An export `"fd_write"` that is a global. -/
def export_fd_write_global : wasm_exporttype_t :=
  ⟨name_of "fd_write", ⟨.WASM_EXTERN_GLOBAL⟩⟩

/-- The function extern with the given handle. -/
def func_handle (handle : Nat) : wasm_extern_t := ⟨.WASM_EXTERN_FUNC, handle⟩

/-- A non-null function extern with the given handle. -/
def extern_func (handle : Nat) : Option wasm_extern_t := some ⟨.WASM_EXTERN_FUNC, handle⟩

/-- A non-null global extern with the given handle. -/
def extern_global (handle : Nat) : Option wasm_extern_t := some ⟨.WASM_EXTERN_GLOBAL, handle⟩

/-- A world in which `cube.wasm` holds `bytes` and compiles to `guest`, the WASI
module is `wasi_module` and instantiates to `wasi_instance`, and the engine
accepts the instantiation of a module with an imports table exactly when
`accept` is set. -/
def world_of (bytes : List Nat) (guest wasi_module : wasm_module_t)
    (wasi_instance : wasm_instance_t) (accept : Bool) : World where
  file := some bytes
  fread_ok := true
  wasm_module_new := fun _ => some guest
  wasmtime_wasi_module_new := some wasi_module
  wasm_instance_new := fun _ imports =>
    match imports with
    | none => some wasi_instance
    | some _ => if accept then some ⟨[]⟩ else none

/-- A guest that imports `("env", "memory")`, a memory. -/
def guest_importing_memory : wasm_module_t :=
  ⟨[⟨name_of "env", name_of "memory", ⟨.WASM_EXTERN_MEMORY⟩⟩], []⟩

/-- A provider module whose only export is the memory `"memory"`. -/
def provider_of_memory : wasm_module_t :=
  ⟨[], [⟨name_of "memory", ⟨.WASM_EXTERN_MEMORY⟩⟩]⟩

/-- The instance of `provider_of_memory`: one non-null memory extern. -/
def provider_of_memory_instance : wasm_instance_t :=
  ⟨[some ⟨.WASM_EXTERN_MEMORY, 0⟩]⟩

/-- A guest that imports `fd_write` and `proc_exit`. -/
def guest_cube : wasm_module_t := ⟨[import_fd_write, import_proc_exit], []⟩

/-- A guest without imports. -/
def guest_without_imports : wasm_module_t := ⟨[], []⟩

/-- A provider module exporting the functions `fd_write`, `proc_exit` and
`args_get`. -/
def provider_wasi : wasm_module_t :=
  ⟨[], [export_fd_write, export_proc_exit, export_args_get]⟩

/-- The instance of `provider_wasi`: three non-null function externs. -/
def provider_wasi_instance : wasm_instance_t :=
  ⟨[extern_func 0, extern_func 1, extern_func 2]⟩

/-- An instance that exposes no exports. -/
def instance_without_exports : wasm_instance_t := ⟨[]⟩

/-! ## Sequencing lemmas -/

theorem Flow.prepend_nil {α : Type} (x : Flow α) : x.prepend [] = x := by
  cases x <;> simp [Flow.prepend]

theorem Flow.prepend_prepend {α : Type} (t u : List Event) (x : Flow α) :
    (x.prepend u).prepend t = x.prepend (t ++ u) := by
  cases x <;> simp [Flow.prepend]

theorem Flow.trace_prepend {α : Type} (t : List Event) (x : Flow α) :
    (x.prepend t).trace = t ++ x.trace := by
  cases x <;> simp [Flow.prepend, Flow.trace]

theorem Flow.prepend_bind {α β : Type} (t : List Event) (x : Flow α) (f : α → Flow β) :
    (x.prepend t).bind f = (x.bind f).prepend t := by
  cases x with
  | next a u =>
    show (f a).prepend (t ++ u) = ((f a).prepend u).prepend t
    rw [Flow.prepend_prepend]
  | exit c u => simp [Flow.prepend, Flow.bind]
  | fault u => simp [Flow.prepend, Flow.bind]

theorem Flow.bind_assoc {α β γ : Type} (x : Flow α) (f : α → Flow β) (g : β → Flow γ) :
    (x.bind f).bind g = x.bind fun a => (f a).bind g := by
  cases x with
  | next a u =>
    show ((f a).prepend u).bind g = ((f a).bind g).prepend u
    exact Flow.prepend_bind u (f a) g
  | exit c u => rfl
  | fault u => rfl

/-! ## `is_name_same` is equality of names -/

theorem memcmp_eq_zero_iff (a : List Nat) : ∀ (b : List Nat) (n : Nat),
    a.length = n → b.length = n → (memcmp a b n = 0 ↔ a = b) := by
  induction a with
  | nil =>
    intro b n ha hb
    subst ha
    cases b with
    | nil => simp [memcmp]
    | cons y ys => simp at hb
  | cons x xs ih =>
    intro b n ha hb
    cases b with
    | nil => subst hb; simp at ha
    | cons y ys =>
      cases n with
      | zero => simp at ha
      | succ n =>
        simp only [List.length_cons, Nat.add_right_cancel_iff] at ha hb
        simp only [memcmp]
        by_cases h1 : x < y
        · simp only [h1, if_true]
          constructor
          · intro h; exact absurd h (by decide)
          · intro h; simp only [List.cons.injEq] at h; omega
        · by_cases h2 : y < x
          · simp only [h1, h2, if_true, if_false]
            constructor
            · intro h; exact absurd h (by decide)
            · intro h; simp only [List.cons.injEq] at h; omega
          · have hxy : x = y := by omega
            simp only [h1, h2, if_false, ih ys n ha hb, List.cons.injEq, hxy, true_and]
            subst hxy
            simp [ih ys n ha hb]

theorem is_name_same_iff_eq (name other : wasm_name_t) :
    is_name_same name other = true ↔ name = other := by
  unfold is_name_same wasm_byte_vec_t.size
  by_cases h : name.data.length = other.data.length
  · simp only [h, ne_eq, not_true_eq_false, if_false, beq_iff_eq]
    rw [memcmp_eq_zero_iff name.data other.data other.data.length h rfl]
    cases name; cases other; simp
  · simp only [ne_eq, h, not_false_eq_true, if_true]
    constructor
    · intro h'; exact absurd h' (by decide)
    · intro h'; subst h'; exact absurd rfl h

/-! ## Array accesses -/

theorem array_load_some {α : Type} (a : Arr) (xs : List α) (idx : Nat) (v : α)
    (h : xs[idx]? = some v) : array_load a xs idx = .next v [.load a idx] := by
  simp [array_load, h]

theorem array_load_none {α : Type} (a : Arr) (xs : List α) (idx : Nat)
    (h : xs[idx]? = none) : array_load a xs idx = .fault [.load a idx] := by
  simp [array_load, h]

theorem array_store_lt {α : Type} (a : Arr) (xs : List α) (idx : Nat) (v : α)
    (h : idx < xs.length) : array_store a xs idx v = .next (xs.set idx v) [.store a idx] := by
  simp [array_store, h]

theorem range_split (m j : Nat) (h : j < m) :
    ∃ post, List.range m = List.range j ++ j :: post := by
  induction m with
  | zero => omega
  | succ m ih =>
    by_cases hj : j = m
    · subst hj
      exact ⟨[], List.range_succ j⟩
    · obtain ⟨post, hp⟩ := ih (by omega)
      refine ⟨post ++ [m], ?_⟩
      rw [List.range_succ, hp]
      simp

/-! ## Export matching -/

theorem export_matches_true_iff (name : wasm_name_t) (ets : List wasm_exporttype_t) (j : Nat) :
    export_matches name ets j = true ↔
      ∃ et, ets[j]? = some et ∧ is_name_same name (wasm_exporttype_name et) = true := by
  unfold export_matches
  cases h : ets[j]? with
  | none => simp
  | some et => simp

theorem export_matches_lt (name : wasm_name_t) (ets : List wasm_exporttype_t) (j : Nat)
    (h : export_matches name ets j = true) : j < ets.length := by
  obtain ⟨et, het, _⟩ := (export_matches_true_iff name ets j).1 h
  by_contra hlt
  rw [List.getElem?_eq_none (by omega)] at het
  cases het

theorem is_first_match_unique (name : wasm_name_t) (ets : List wasm_exporttype_t) (j k : Nat)
    (hj : is_first_match name ets j) (hk : is_first_match name ets k) : j = k := by
  rcases Nat.lt_trichotomy j k with h | h | h
  · have := hk.2 j h
    rw [hj.1] at this
    cases this
  · exact h
  · have := hj.2 k h
    rw [hk.1] at this
    cases this

theorem no_match_or_first_match (name : wasm_name_t) (ets : List wasm_exporttype_t) :
    no_match name ets ∨ ∃ j, is_first_match name ets j := by
  by_cases h : ∃ j, export_matches name ets j = true
  · right
    refine ⟨Nat.find h, Nat.find_spec h, ?_⟩
    intro k hk
    have := Nat.find_min h hk
    simpa using this
  · left
    intro j _
    have := fun hj => h ⟨j, hj⟩
    simpa using this

theorem no_match_not_first_match (name : wasm_name_t) (ets : List wasm_exporttype_t) (j : Nat)
    (hn : no_match name ets) (hj : is_first_match name ets j) : False := by
  have := hn j (export_matches_lt name ets j hj.1)
  rw [hj.1] at this
  cases this

/-! ## The scan of the exports -/

theorem inner_loop_cons_skip (name : wasm_name_t) (ets : List wasm_exporttype_t)
    (wex : List (Option wasm_extern_t)) (i : Nat) (imports : List (Option wasm_extern_t))
    (j : Nat) (js : List Nat) (et : wasm_exporttype_t) (het : ets[j]? = some et)
    (h : is_name_same name (wasm_exporttype_name et) = false) :
    inner_loop name ets wex i imports (j :: js) =
      (inner_loop name ets wex i imports js).prepend
        [.load .export_types j, .compare name (wasm_exporttype_name et)] := by
  simp only [inner_loop, array_load_some _ _ _ _ het, Flow.bind, h, Bool.not_false, if_true,
    Flow.prepend_prepend, List.nil_append, List.singleton_append, List.cons_append]

theorem inner_loop_cons_hit (name : wasm_name_t) (ets : List wasm_exporttype_t)
    (wex : List (Option wasm_extern_t)) (i : Nat) (imports : List (Option wasm_extern_t))
    (j : Nat) (js : List Nat) (et : wasm_exporttype_t) (het : ets[j]? = some et)
    (h : is_name_same name (wasm_exporttype_name et) = true) :
    inner_loop name ets wex i imports (j :: js) =
      ((array_load .wasi_exports wex j).bind fun v => array_store .imports imports i v).prepend
        [.load .export_types j, .compare name (wasm_exporttype_name et)] := by
  simp only [inner_loop, array_load_some _ _ _ _ het, Flow.bind, h, Bool.not_true,
    Bool.false_eq_true, if_false,
    Flow.prepend_prepend, List.nil_append, List.singleton_append, List.cons_append]

/-- A scan over indices none of which matches falls through and leaves the
table as it was. -/
theorem inner_loop_no_match (name : wasm_name_t) (ets : List wasm_exporttype_t)
    (wex : List (Option wasm_extern_t)) (i : Nat) (imports : List (Option wasm_extern_t))
    (js : List Nat)
    (h : ∀ k ∈ js, k < ets.length ∧ export_matches name ets k = false) :
    inner_loop name ets wex i imports js =
      .next imports (inner_loop name ets wex i imports js).trace := by
  induction js with
  | nil => simp [inner_loop, Flow.trace]
  | cons j js ih =>
    have hj := h j (List.mem_cons_self j js)
    have het : ets[j]? = some (ets[j]) := List.getElem?_eq_getElem hj.1
    have hm : is_name_same name (wasm_exporttype_name ets[j]) = false := by
      have := hj.2
      simpa [export_matches, het] using this
    have ih' := ih (fun k hk => h k (List.mem_cons_of_mem j hk))
    rw [inner_loop_cons_skip name ets wex i imports j js _ het hm, Flow.trace_prepend]
    rw [ih']
    simp [Flow.prepend, Flow.trace]

/-- A scan that meets a matching index `j` after indices that do not match
reads `wasi_exports.data[j]`, stores it and stops: the indices after `j` play
no part. -/
theorem inner_loop_first_hit (name : wasm_name_t) (ets : List wasm_exporttype_t)
    (wex : List (Option wasm_extern_t)) (i : Nat) (imports : List (Option wasm_extern_t))
    (pre : List Nat) (j : Nat) (post : List Nat)
    (h : ∀ k ∈ pre, k < ets.length ∧ export_matches name ets k = false)
    (hj : export_matches name ets j = true) :
    inner_loop name ets wex i imports (pre ++ j :: post) =
      ((array_load .wasi_exports wex j).bind fun v => array_store .imports imports i v).prepend
        ((inner_loop name ets wex i imports pre).trace ++
          [.load .export_types j, .compare name name]) := by
  obtain ⟨et, het, hm⟩ := (export_matches_true_iff name ets j).1 hj
  have hname : wasm_exporttype_name et = name := ((is_name_same_iff_eq _ _).1 hm).symm
  induction pre with
  | nil =>
    rw [List.nil_append, inner_loop_cons_hit name ets wex i imports j post et het hm, hname]
    simp [inner_loop, Flow.trace]
  | cons k pre ih =>
    have hk := h k (List.mem_cons_self k pre)
    have hket : ets[k]? = some (ets[k]) := List.getElem?_eq_getElem hk.1
    have hkm : is_name_same name (wasm_exporttype_name ets[k]) = false := by
      have := hk.2
      simpa [export_matches, hket] using this
    have ih' := ih (fun x hx => h x (List.mem_cons_of_mem k hx))
    rw [List.cons_append, inner_loop_cons_skip name ets wex i imports k _ _ hket hkm, ih',
      inner_loop_cons_skip name ets wex i imports k _ _ hket hkm, Flow.trace_prepend,
      Flow.prepend_prepend]
    simp

theorem Event.of_scan_mono (js js' : List Nat) (i : Nat) (h : ∀ k ∈ js, k ∈ js') (e : Event)
    (he : e.of_scan js i) : e.of_scan js' i := by
  cases e with
  | load a k => cases a <;> simp_all [Event.of_scan]
  | store a k => cases a <;> simp_all [Event.of_scan]
  | _ => simp_all [Event.of_scan]

theorem inner_loop_events (name : wasm_name_t) (ets : List wasm_exporttype_t)
    (wex : List (Option wasm_extern_t)) (i : Nat) (imports : List (Option wasm_extern_t))
    (js : List Nat) :
    ∀ e ∈ (inner_loop name ets wex i imports js).trace, e.of_scan js i := by
  induction js with
  | nil => simp [inner_loop, Flow.trace]
  | cons j js ih =>
    intro e he
    cases het : ets[j]? with
    | none =>
      simp only [inner_loop, array_load_none _ _ _ het, Flow.bind, Flow.trace,
        List.mem_singleton] at he
      subst he
      simp [Event.of_scan]
    | some et =>
      cases hm : is_name_same name (wasm_exporttype_name et) with
      | false =>
        rw [inner_loop_cons_skip name ets wex i imports j js et het hm, Flow.trace_prepend] at he
        rcases List.mem_append.1 he with h | h
        · simp only [List.mem_cons, List.mem_singleton, List.not_mem_nil, or_false] at h
          rcases h with h | h <;> subst h <;> simp [Event.of_scan]
        · exact Event.of_scan_mono js (j :: js) i (fun k hk => List.mem_cons_of_mem j hk) e
            (ih e h)
      | true =>
        rw [inner_loop_cons_hit name ets wex i imports j js et het hm, Flow.trace_prepend] at he
        rcases List.mem_append.1 he with h | h
        · simp only [List.mem_cons, List.mem_singleton, List.not_mem_nil, or_false] at h
          rcases h with h | h <;> subst h <;> simp [Event.of_scan]
        · cases hv : wex[j]? with
          | none =>
            simp only [array_load_none _ _ _ hv, Flow.bind, Flow.trace,
              List.mem_singleton] at h
            subst h
            simp [Event.of_scan]
          | some v =>
            by_cases hi : i < imports.length
            · simp only [array_load_some _ _ _ _ hv, array_store_lt _ _ _ _ hi, Flow.bind,
                Flow.prepend, Flow.trace, List.singleton_append, List.mem_cons,
                List.mem_singleton, List.not_mem_nil, or_false] at h
              rcases h with h | h <;> subst h <;> simp [Event.of_scan]
            · simp only [array_load_some _ _ _ _ hv, array_store, hi, if_false, Flow.bind,
                Flow.prepend, Flow.trace, List.singleton_append, List.mem_cons,
                List.mem_singleton, List.not_mem_nil, or_false] at h
              rcases h with h | h <;> subst h <;> simp [Event.of_scan]

theorem inner_loop_compares (name : wasm_name_t) (ets : List wasm_exporttype_t)
    (wex : List (Option wasm_extern_t)) (i : Nat) (imports : List (Option wasm_extern_t))
    (js : List Nat) :
    (inner_loop name ets wex i imports js).trace.countP Event.is_compare ≤ js.length := by
  induction js with
  | nil => simp [inner_loop, Flow.trace]
  | cons j js ih =>
    cases het : ets[j]? with
    | none =>
      simp [inner_loop, array_load_none _ _ _ het, Flow.bind, Flow.trace, Event.is_compare]
    | some et =>
      cases hm : is_name_same name (wasm_exporttype_name et) with
      | false =>
        rw [inner_loop_cons_skip name ets wex i imports j js et het hm, Flow.trace_prepend,
          List.countP_append]
        simp only [List.countP_cons, List.countP_nil, Event.is_compare, List.length_cons]
        simp only [Bool.false_eq_true, if_false, if_true]
        omega
      | true =>
        rw [inner_loop_cons_hit name ets wex i imports j js et het hm, Flow.trace_prepend,
          List.countP_append]
        have h0 : ((array_load Arr.wasi_exports wex j).bind fun v =>
            array_store Arr.imports imports i v).trace.countP Event.is_compare = 0 := by
          cases hv : wex[j]? with
          | none => simp [array_load_none _ _ _ hv, Flow.bind, Flow.trace, Event.is_compare]
          | some v =>
            by_cases hi : i < imports.length
            · simp [array_load_some _ _ _ _ hv, array_store_lt _ _ _ _ hi, Flow.bind,
                Flow.prepend, Flow.trace, Event.is_compare]
            · simp [array_load_some _ _ _ _ hv, array_store, hi, Flow.bind,
                Flow.prepend, Flow.trace, Event.is_compare]
        rw [h0]
        simp only [List.countP_cons, List.countP_nil, Event.is_compare, List.length_cons]
        simp only [Bool.false_eq_true, if_false, if_true]
        omega

/-- The scan for a name whose first match is at `j` is the scan of the indices
`0..j` alone. -/
theorem inner_loop_stops (name : wasm_name_t) (ets : List wasm_exporttype_t)
    (wex : List (Option wasm_extern_t)) (i : Nat) (imports : List (Option wasm_extern_t))
    (j : Nat) (hj : is_first_match name ets j) :
    inner_loop name ets wex i imports (List.range ets.length) =
      inner_loop name ets wex i imports (List.range (j + 1)) := by
  obtain ⟨post, hp⟩ := range_split ets.length j (export_matches_lt name ets j hj.1)
  have hpre : ∀ k ∈ List.range j, k < ets.length ∧ export_matches name ets k = false := by
    intro k hk
    have hk' : k < j := List.mem_range.1 hk
    exact ⟨Nat.lt_trans hk' (export_matches_lt name ets j hj.1), hj.2 k hk'⟩
  rw [hp, inner_loop_first_hit name ets wex i imports _ j post hpre hj.1, List.range_succ,
    inner_loop_first_hit name ets wex i imports _ j [] hpre hj.1]

/-! ## One import -/

theorem import_step_eq (its : List wasm_importtype_t) (ets : List wasm_exporttype_t)
    (wex : List (Option wasm_extern_t)) (i : Nat) (imports : List (Option wasm_extern_t))
    (it : wasm_importtype_t) (hit : its[i]? = some it) (hi : i < imports.length) :
    import_step its ets wex i imports =
      ((inner_loop (wasm_importtype_name it) ets wex i (imports.set i none)
        (List.range ets.length)).bind (check_import (wasm_importtype_name it) i)).prepend
        [.load .import_types i, .store .imports i] := by
  simp only [import_step, array_load_some _ _ _ _ hit, array_store_lt _ _ _ _ hi, Flow.bind,
    Flow.prepend_prepend, List.singleton_append]

theorem check_import_null (name : wasm_name_t) (i : Nat) (imports : List (Option wasm_extern_t))
    (h : imports[i]? = some none) :
    check_import name i imports = .exit 1 (.load .imports i :: not_found_report name) := by
  simp [check_import, array_load_some _ _ _ _ h, Flow.bind, Flow.prepend]

theorem check_import_some (name : wasm_name_t) (i : Nat) (imports : List (Option wasm_extern_t))
    (v : wasm_extern_t) (h : imports[i]? = some (some v)) :
    check_import name i imports = .next imports [.load .imports i] := by
  simp [check_import, array_load_some _ _ _ _ h, Flow.bind, Flow.prepend]

theorem range_no_match (name : wasm_name_t) (ets : List wasm_exporttype_t)
    (hn : no_match name ets) :
    ∀ k ∈ List.range ets.length, k < ets.length ∧ export_matches name ets k = false := by
  intro k hk
  exact ⟨List.mem_range.1 hk, hn k (List.mem_range.1 hk)⟩

/-- An import whose name matches no export is reported as not found. -/
theorem import_step_no_match (its : List wasm_importtype_t) (ets : List wasm_exporttype_t)
    (wex : List (Option wasm_extern_t)) (i : Nat) (imports : List (Option wasm_extern_t))
    (it : wasm_importtype_t) (hit : its[i]? = some it) (hi : i < imports.length)
    (hn : no_match (wasm_importtype_name it) ets) :
    ∃ T, import_step its ets wex i imports =
      .exit 1 (T ++ not_found_report (wasm_importtype_name it)) := by
  rw [import_step_eq its ets wex i imports it hit hi,
    inner_loop_no_match _ ets wex i _ _ (range_no_match _ ets hn)]
  have h : (imports.set i none)[i]? = some none := by
    simp [List.getElem?_set_self, hi]
  simp only [Flow.bind, check_import_null _ _ _ h, Flow.prepend]
  exact ⟨[.load .import_types i, .store .imports i] ++
    (inner_loop (wasm_importtype_name it) ets wex i (imports.set i none)
      (List.range ets.length)).trace ++ [.load .imports i], by simp⟩

/-- The scan for a name whose first match is at `j`, written out. -/
theorem inner_loop_first_match (name : wasm_name_t) (ets : List wasm_exporttype_t)
    (wex : List (Option wasm_extern_t)) (i : Nat) (imports : List (Option wasm_extern_t))
    (j : Nat) (hj : is_first_match name ets j) :
    inner_loop name ets wex i imports (List.range ets.length) =
      ((array_load .wasi_exports wex j).bind fun v => array_store .imports imports i v).prepend
        ((inner_loop name ets wex i imports (List.range j)).trace ++
          [.load .export_types j, .compare name name]) := by
  have hpre : ∀ k ∈ List.range j, k < ets.length ∧ export_matches name ets k = false := by
    intro k hk
    have hk' : k < j := List.mem_range.1 hk
    exact ⟨Nat.lt_trans hk' (export_matches_lt name ets j hj.1), hj.2 k hk'⟩
  rw [inner_loop_stops name ets wex i imports j hj, List.range_succ,
    inner_loop_first_hit name ets wex i imports _ j [] hpre hj.1]

/-- An import whose first matching export position is past the end of the
extern vector makes the program read out of bounds there. -/
theorem import_step_oob (its : List wasm_importtype_t) (ets : List wasm_exporttype_t)
    (wex : List (Option wasm_extern_t)) (i : Nat) (imports : List (Option wasm_extern_t))
    (it : wasm_importtype_t) (hit : its[i]? = some it) (hi : i < imports.length)
    (j : Nat) (hj : is_first_match (wasm_importtype_name it) ets j) (hv : wex[j]? = none) :
    ∃ T, import_step its ets wex i imports = .fault (T ++ [.load .wasi_exports j]) := by
  rw [import_step_eq its ets wex i imports it hit hi,
    inner_loop_first_match _ ets wex i _ j hj, array_load_none _ _ _ hv]
  simp only [Flow.bind, Flow.prepend]
  exact ⟨[.load .import_types i, .store .imports i] ++
    (inner_loop (wasm_importtype_name it) ets wex i (imports.set i none)
      (List.range j)).trace ++ [.load .export_types j,
        .compare (wasm_importtype_name it) (wasm_importtype_name it)], by simp⟩

/-- An import whose first matching export position holds `NULL` is reported as
not found. -/
theorem import_step_null (its : List wasm_importtype_t) (ets : List wasm_exporttype_t)
    (wex : List (Option wasm_extern_t)) (i : Nat) (imports : List (Option wasm_extern_t))
    (it : wasm_importtype_t) (hit : its[i]? = some it) (hi : i < imports.length)
    (j : Nat) (hj : is_first_match (wasm_importtype_name it) ets j)
    (hv : wex[j]? = some none) :
    ∃ T, import_step its ets wex i imports =
      .exit 1 (T ++ not_found_report (wasm_importtype_name it)) := by
  have hi' : i < (imports.set i none).length := by simpa using hi
  have h : ((imports.set i none).set i none)[i]? = some none := by
    simp [List.getElem?_set_self, hi]
  rw [import_step_eq its ets wex i imports it hit hi,
    inner_loop_first_match _ ets wex i _ j hj, array_load_some _ _ _ _ hv]
  simp only [Flow.bind, Flow.prepend, array_store_lt _ _ _ _ hi', check_import_null _ _ _ h]
  exact ⟨[.load .import_types i, .store .imports i] ++
    (inner_loop (wasm_importtype_name it) ets wex i (imports.set i none)
      (List.range j)).trace ++ [.load .export_types j,
        .compare (wasm_importtype_name it) (wasm_importtype_name it),
        .load .wasi_exports j, .store .imports i, .load .imports i], by simp⟩

/-- An import whose first matching export position holds a non-null extern
value gets that value in its slot of the table. -/
theorem import_step_resolved (its : List wasm_importtype_t) (ets : List wasm_exporttype_t)
    (wex : List (Option wasm_extern_t)) (i : Nat) (imports : List (Option wasm_extern_t))
    (it : wasm_importtype_t) (hit : its[i]? = some it) (hi : i < imports.length)
    (v : wasm_extern_t) (hr : resolved_to (wasm_importtype_name it) ets wex v) :
    ∃ T, import_step its ets wex i imports = .next (imports.set i (some v)) T := by
  obtain ⟨j, hj, hv⟩ := hr
  have hi' : i < (imports.set i none).length := by simpa using hi
  have h : (imports.set i (some v))[i]? = some (some v) := by
    simp [List.getElem?_set_self, hi]
  rw [import_step_eq its ets wex i imports it hit hi,
    inner_loop_first_match _ ets wex i _ j hj, array_load_some _ _ _ _ hv]
  simp only [Flow.bind, Flow.prepend, array_store_lt _ _ _ _ hi', check_import_some _ _ _ v h,
    List.set_set]
  exact ⟨_, rfl⟩

/-! ## Events of one import -/

theorem Flow.trace_bind {α β : Type} (x : Flow α) (f : α → Flow β) :
    ∃ R, (x.bind f).trace = x.trace ++ R ∧
      (R = [] ∨ ∃ a t, x = .next a t ∧ R = (f a).trace) := by
  cases x with
  | next a t =>
    refine ⟨(f a).trace, ?_, Or.inr ⟨a, t, rfl, rfl⟩⟩
    show ((f a).prepend t).trace = t ++ (f a).trace
    exact Flow.trace_prepend t (f a)
  | exit c t => exact ⟨[], by simp [Flow.bind, Flow.trace], Or.inl rfl⟩
  | fault t => exact ⟨[], by simp [Flow.bind, Flow.trace], Or.inl rfl⟩

theorem check_import_trace (name : wasm_name_t) (i : Nat)
    (imports : List (Option wasm_extern_t)) :
    (check_import name i imports).trace = [.load .imports i] ∨
      (check_import name i imports).trace = .load .imports i :: not_found_report name := by
  unfold check_import
  cases h : imports[i]? with
  | none => left; simp [array_load_none _ _ _ h, Flow.bind, Flow.trace]
  | some p =>
    cases p with
    | none => right; simp [array_load_some _ _ _ _ h, Flow.bind, Flow.trace, Flow.prepend]
    | some v => left; simp [array_load_some _ _ _ _ h, Flow.bind, Flow.trace, Flow.prepend]

/-- The events of the loop body for import `i`: two accesses, the events of the
scan, and the events of the final test. -/
theorem import_step_trace (its : List wasm_importtype_t) (ets : List wasm_exporttype_t)
    (wex : List (Option wasm_extern_t)) (i : Nat) (imports : List (Option wasm_extern_t)) :
    (import_step its ets wex i imports).trace = [.load .import_types i] ∨
    (import_step its ets wex i imports).trace = [.load .import_types i, .store .imports i] ∨
    ∃ it R, its[i]? = some it ∧ i < imports.length ∧
      (import_step its ets wex i imports).trace =
        [.load .import_types i, .store .imports i] ++
          (inner_loop (wasm_importtype_name it) ets wex i (imports.set i none)
            (List.range ets.length)).trace ++ R ∧
      (R = [] ∨ R = [.load .imports i] ∨
        R = .load .imports i :: not_found_report (wasm_importtype_name it)) := by
  cases hit : its[i]? with
  | none => left; simp [import_step, array_load_none _ _ _ hit, Flow.bind, Flow.trace]
  | some it =>
    by_cases hi : i < imports.length
    · right; right
      obtain ⟨R, hR, hR'⟩ := Flow.trace_bind
        (inner_loop (wasm_importtype_name it) ets wex i (imports.set i none)
          (List.range ets.length)) (check_import (wasm_importtype_name it) i)
      refine ⟨it, R, rfl, hi, ?_, ?_⟩
      · rw [import_step_eq its ets wex i imports it hit hi, Flow.trace_prepend, hR]
        simp
      · rcases hR' with h | ⟨a, t, _, h⟩
        · exact Or.inl h
        · rcases check_import_trace (wasm_importtype_name it) i a with h' | h'
          · exact Or.inr (Or.inl (h.trans h'))
          · exact Or.inr (Or.inr (h.trans h'))
    · right; left
      simp [import_step, array_load_some _ _ _ _ hit, array_store, hi, Flow.bind, Flow.trace,
        Flow.prepend]

theorem Event.of_resolution_mono (is is' : List Nat) (m : Nat) (h : ∀ k ∈ is, k ∈ is')
    (e : Event) (he : e.of_resolution is m) : e.of_resolution is' m := by
  cases e with
  | load a k => cases a <;> simp_all [Event.of_resolution]
  | store a k => cases a <;> simp_all [Event.of_resolution]
  | _ => simp_all [Event.of_resolution]

theorem Event.of_scan_of_resolution (m i : Nat) (e : Event)
    (he : e.of_scan (List.range m) i) : e.of_resolution [i] m := by
  cases e with
  | load a k => cases a <;> simp_all [Event.of_resolution, Event.of_scan]
  | store a k => cases a <;> simp_all [Event.of_resolution, Event.of_scan]
  | _ => simp_all [Event.of_resolution, Event.of_scan]

theorem import_step_events (its : List wasm_importtype_t) (ets : List wasm_exporttype_t)
    (wex : List (Option wasm_extern_t)) (i : Nat) (imports : List (Option wasm_extern_t)) :
    ∀ e ∈ (import_step its ets wex i imports).trace, e.of_resolution [i] ets.length := by
  intro e he
  rcases import_step_trace its ets wex i imports with h | h | ⟨it, R, _, _, h, hR⟩
  · rw [h] at he
    simp only [List.mem_singleton] at he
    subst he; simp [Event.of_resolution]
  · rw [h] at he
    simp only [List.mem_cons, List.mem_singleton, List.not_mem_nil, or_false] at he
    rcases he with he | he <;> subst he <;> simp [Event.of_resolution]
  · rw [h] at he
    simp only [List.mem_append, List.mem_cons, List.mem_singleton, List.not_mem_nil,
      or_false] at he
    rcases he with (he | he) | he
    · rcases he with he | he <;> subst he <;> simp [Event.of_resolution]
    · exact Event.of_scan_of_resolution _ i e (inner_loop_events _ ets wex i _ _ e he)
    · rcases hR with hR | hR | hR
      · subst hR; simp at he
      · subst hR
        simp only [List.mem_singleton] at he
        subst he; simp [Event.of_resolution]
      · subst hR
        simp only [not_found_report, List.mem_cons, List.mem_singleton, List.not_mem_nil,
          or_false] at he
        rcases he with he | he | he | he <;> subst he <;> simp [Event.of_resolution]

theorem import_step_compares (its : List wasm_importtype_t) (ets : List wasm_exporttype_t)
    (wex : List (Option wasm_extern_t)) (i : Nat) (imports : List (Option wasm_extern_t)) :
    (import_step its ets wex i imports).trace.countP Event.is_compare ≤ ets.length := by
  rcases import_step_trace its ets wex i imports with h | h | ⟨it, R, _, _, h, hR⟩
  · rw [h]; simp [Event.is_compare]
  · rw [h]; simp [Event.is_compare]
  · have hin := inner_loop_compares (wasm_importtype_name it) ets wex i (imports.set i none)
      (List.range ets.length)
    rw [List.length_range] at hin
    have hR0 : R.countP Event.is_compare = 0 := by
      rcases hR with hR | hR | hR <;> subst hR <;> simp [Event.is_compare, not_found_report]
    rw [h, List.countP_append, List.countP_append, hR0]
    simp only [List.countP_cons, List.countP_nil, Event.is_compare]
    simp only [Bool.false_eq_true, if_false]
    omega

/-- When the first match of import `i` is at `j`, the body for import `i`
reads no export descriptor and no extern value past `j`. -/
theorem import_step_scan_bound (its : List wasm_importtype_t) (ets : List wasm_exporttype_t)
    (wex : List (Option wasm_extern_t)) (i : Nat) (imports : List (Option wasm_extern_t))
    (it : wasm_importtype_t) (hit : its[i]? = some it) (j : Nat)
    (hj : is_first_match (wasm_importtype_name it) ets j) :
    ∀ e ∈ (import_step its ets wex i imports).trace, ∀ k,
      e = .load .export_types k ∨ e = .load .wasi_exports k → k ≤ j := by
  intro e he k hk
  rcases import_step_trace its ets wex i imports with h | h | ⟨it', R, hit', _, h, hR⟩
  · rw [h] at he
    simp only [List.mem_singleton] at he
    subst he
    rcases hk with hk | hk <;> cases hk
  · rw [h] at he
    simp only [List.mem_cons, List.mem_singleton, List.not_mem_nil, or_false] at he
    rcases he with he | he <;> subst he <;> rcases hk with hk | hk <;> cases hk
  · rw [hit] at hit'
    cases hit'
    rw [h, inner_loop_stops _ ets wex i _ j hj] at he
    simp only [List.mem_append, List.mem_cons, List.mem_singleton, List.not_mem_nil,
      or_false] at he
    rcases he with (he | he) | he
    · rcases he with he | he <;> subst he <;> rcases hk with hk | hk <;> cases hk
    · have := inner_loop_events _ ets wex i _ _ e he
      rcases hk with hk | hk <;> subst hk <;>
        simp only [Event.of_scan, List.mem_range] at this <;> omega
    · rcases hR with hR | hR | hR
      · subst hR; simp at he
      · subst hR
        simp only [List.mem_singleton] at he
        subst he
        rcases hk with hk | hk <;> cases hk
      · subst hR
        simp only [not_found_report, List.mem_cons, List.mem_singleton, List.not_mem_nil,
          or_false] at he
        rcases he with he | he | he | he <;> subst he <;> rcases hk with hk | hk <;> cases hk

/-! ## The loop over the imports -/

theorem outer_loop_append (its : List wasm_importtype_t) (ets : List wasm_exporttype_t)
    (wex : List (Option wasm_extern_t)) (xs ys : List Nat) :
    ∀ imports : List (Option wasm_extern_t),
      outer_loop its ets wex imports (xs ++ ys) =
        (outer_loop its ets wex imports xs).bind fun imports' =>
          outer_loop its ets wex imports' ys := by
  induction xs with
  | nil =>
    intro imports
    simp [outer_loop, Flow.bind, Flow.prepend_nil]
  | cons x xs ih =>
    intro imports
    simp only [List.cons_append, outer_loop, Flow.bind_assoc]
    congr 1
    funext imports'
    exact ih imports'

theorem outer_loop_singleton (its : List wasm_importtype_t) (ets : List wasm_exporttype_t)
    (wex : List (Option wasm_extern_t)) (i : Nat) (imports : List (Option wasm_extern_t)) :
    outer_loop its ets wex imports [i] = import_step its ets wex i imports := by
  simp only [outer_loop]
  cases import_step its ets wex i imports <;> simp [Flow.bind, Flow.prepend]

theorem outer_loop_events (its : List wasm_importtype_t) (ets : List wasm_exporttype_t)
    (wex : List (Option wasm_extern_t)) (is : List Nat) :
    ∀ (imports : List (Option wasm_extern_t)),
      ∀ e ∈ (outer_loop its ets wex imports is).trace, e.of_resolution is ets.length := by
  induction is with
  | nil => intro imports e he; simp [outer_loop, Flow.trace] at he
  | cons i is ih =>
    intro imports e he
    obtain ⟨R, hR, hR'⟩ := Flow.trace_bind (import_step its ets wex i imports)
      (fun imports' => outer_loop its ets wex imports' is)
    simp only [outer_loop] at he
    rw [hR] at he
    rcases List.mem_append.1 he with h | h
    · exact Event.of_resolution_mono [i] (i :: is) _ (by simp) e
        (import_step_events its ets wex i imports e h)
    · rcases hR' with h' | ⟨a, t, _, h'⟩
      · subst h'; simp at h
      · rw [h'] at h
        exact Event.of_resolution_mono is (i :: is) _
          (fun k hk => List.mem_cons_of_mem i hk) e (ih a e h)

theorem outer_loop_compares (its : List wasm_importtype_t) (ets : List wasm_exporttype_t)
    (wex : List (Option wasm_extern_t)) (is : List Nat) :
    ∀ (imports : List (Option wasm_extern_t)),
      (outer_loop its ets wex imports is).trace.countP Event.is_compare ≤
        is.length * ets.length := by
  induction is with
  | nil => intro imports; simp [outer_loop, Flow.trace]
  | cons i is ih =>
    intro imports
    obtain ⟨R, hR, hR'⟩ := Flow.trace_bind (import_step its ets wex i imports)
      (fun imports' => outer_loop its ets wex imports' is)
    simp only [outer_loop]
    rw [hR, List.countP_append, List.length_cons, Nat.succ_mul]
    have h1 := import_step_compares its ets wex i imports
    have h2 : R.countP Event.is_compare ≤ is.length * ets.length := by
      rcases hR' with h' | ⟨a, t, _, h'⟩
      · subst h'; simp
      · rw [h']; exact ih a
    omega

/-- The loop over the first `i` imports, all of them resolved, falls through
with their slots filled and the other slots untouched. -/
theorem outer_loop_prefix (its : List wasm_importtype_t) (ets : List wasm_exporttype_t)
    (wex : List (Option wasm_extern_t)) (imports : List (Option wasm_extern_t)) (i : Nat)
    (hi : i ≤ imports.length) (hres : ∀ x, x < i → import_resolved its ets wex x) :
    ∃ imports' T, outer_loop its ets wex imports (List.range i) = .next imports' T ∧
      imports'.length = imports.length ∧
      (∀ x, x < i → ∃ it v, its[x]? = some it ∧
        resolved_to (wasm_importtype_name it) ets wex v ∧ imports'[x]? = some (some v)) ∧
      (∀ x, i ≤ x → imports'[x]? = imports[x]?) := by
  induction i with
  | zero =>
    exact ⟨imports, [], by simp [outer_loop], rfl, fun x hx => absurd hx (Nat.not_lt_zero x),
      fun _ _ => rfl⟩
  | succ i ih =>
    obtain ⟨imports', T, hloop, hlen, hfilled, hrest⟩ :=
      ih (by omega) (fun x hx => hres x (by omega))
    obtain ⟨it, v, hit, hv⟩ := hres i (by omega)
    obtain ⟨T', hstep⟩ := import_step_resolved its ets wex i imports' it hit (by omega) v hv
    refine ⟨imports'.set i (some v), T ++ T', ?_, by simpa using hlen, ?_, ?_⟩
    · rw [List.range_succ, outer_loop_append, hloop]
      simp only [Flow.bind, outer_loop_singleton, hstep, Flow.prepend]
    · intro x hx
      by_cases hxi : x = i
      · subst hxi
        exact ⟨it, v, hit, hv, List.getElem?_set_self (by omega)⟩
      · obtain ⟨it', v', hit', hv', hslot⟩ := hfilled x (by omega)
        refine ⟨it', v', hit', hv', ?_⟩
        rw [List.getElem?_set_ne (fun h => hxi h.symm)]
        exact hslot
    · intro x hx
      rw [List.getElem?_set_ne (by omega)]
      exact hrest x (by omega)

theorem range_prefix (n i : Nat) (h : i < n) :
    ∃ post, List.range n = List.range (i + 1) ++ post := by
  obtain ⟨post, hp⟩ := range_split n i h
  exact ⟨post, by rw [hp, List.range_succ]; simp⟩

/-- The loop over `0..n-1` whose first `i` imports are resolved is decided by
the body for import `i` whenever that body does not fall through. -/
theorem outer_loop_stops (its : List wasm_importtype_t) (ets : List wasm_exporttype_t)
    (wex : List (Option wasm_extern_t)) (imports : List (Option wasm_extern_t)) (n i : Nat)
    (hin : i < n) (r : Flow (List (Option wasm_extern_t)))
    (hr : outer_loop its ets wex imports (List.range (i + 1)) = r)
    (hnot : ∀ a t, r ≠ .next a t) :
    outer_loop its ets wex imports (List.range n) = r := by
  obtain ⟨post, hp⟩ := range_prefix n i hin
  rw [hp, outer_loop_append, hr]
  cases r with
  | next a t => exact absurd rfl (hnot a t)
  | exit c t => rfl
  | fault t => rfl

/-! ## The resolution as a whole -/

theorem import_classify (its : List wasm_importtype_t) (ets : List wasm_exporttype_t)
    (wex : List (Option wasm_extern_t)) (x : Nat) (hx : x < its.length) :
    import_resolved its ets wex x ∨ import_unresolved its ets wex x ∨
      import_out_of_bounds its ets wex x := by
  have hit : its[x]? = some (its[x]) := List.getElem?_eq_getElem hx
  rcases no_match_or_first_match (wasm_importtype_name its[x]) ets with hn | ⟨j, hj⟩
  · exact Or.inr (Or.inl ⟨_, hit, Or.inl hn⟩)
  · cases hv : wex[j]? with
    | none => exact Or.inr (Or.inr ⟨_, j, hit, hj, hv⟩)
    | some p =>
      cases p with
      | none => exact Or.inr (Or.inl ⟨_, hit, Or.inr ⟨j, hj, hv⟩⟩)
      | some v => exact Or.inl ⟨_, v, hit, j, hj, hv⟩

/-- Every import resolved: the loop falls through with the full table. -/
theorem resolve_imports_resolved (its : List wasm_importtype_t)
    (ets : List wasm_exporttype_t) (wex : List (Option wasm_extern_t))
    (hres : ∀ x, x < its.length → import_resolved its ets wex x) :
    ∃ imports T, resolve_imports its ets wex = .next imports T ∧
      imports.length = its.length ∧
      ∀ x, x < its.length → ∃ it v, its[x]? = some it ∧
        resolved_to (wasm_importtype_name it) ets wex v ∧ imports[x]? = some (some v) := by
  obtain ⟨imports, T, h, hlen, hfilled, _⟩ := outer_loop_prefix its ets wex
    (List.replicate its.length none) its.length (by simp) hres
  exact ⟨imports, T, h, by simpa using hlen, hfilled⟩

/-- The first import that is not resolved decides the loop: the loop ends as
the body for that import ends, after the events of the imports before it. -/
theorem resolve_imports_at_first (its : List wasm_importtype_t)
    (ets : List wasm_exporttype_t) (wex : List (Option wasm_extern_t)) (i : Nat)
    (hi : i < its.length) (hres : ∀ x, x < i → import_resolved its ets wex x) :
    ∃ imports' T0, imports'.length = its.length ∧
      ((∀ a t, import_step its ets wex i imports' ≠ .next a t) →
        resolve_imports its ets wex = (import_step its ets wex i imports').prepend T0) := by
  obtain ⟨imports', T0, h, hlen, _, _⟩ := outer_loop_prefix its ets wex
    (List.replicate its.length none) i (by simp; omega) hres
  refine ⟨imports', T0, by simpa using hlen, ?_⟩
  intro hnot
  have hr : outer_loop its ets wex (List.replicate its.length none) (List.range (i + 1)) =
      (import_step its ets wex i imports').prepend T0 := by
    rw [List.range_succ, outer_loop_append, h]
    simp only [Flow.bind, outer_loop_singleton]
  refine outer_loop_stops its ets wex _ its.length i hi _ hr ?_
  intro a t hEq
  cases hstep : import_step its ets wex i imports' with
  | next a' t' => exact hnot a' t' hstep
  | exit c t' => rw [hstep] at hEq; simp [Flow.prepend] at hEq
  | fault t' => rw [hstep] at hEq; simp [Flow.prepend] at hEq

/-- The first import that is not resolved is unresolved: the loop reports it
and `main` returns 1. -/
theorem resolve_imports_unresolved (its : List wasm_importtype_t)
    (ets : List wasm_exporttype_t) (wex : List (Option wasm_extern_t)) (i : Nat)
    (hi : i < its.length) (hres : ∀ x, x < i → import_resolved its ets wex x)
    (hun : import_unresolved its ets wex i) :
    ∃ it T, its[i]? = some it ∧
      resolve_imports its ets wex =
        .exit 1 (T ++ not_found_report (wasm_importtype_name it)) := by
  obtain ⟨imports', T0, hlen, h⟩ := resolve_imports_at_first its ets wex i hi hres
  obtain ⟨it, hit, hcase⟩ := hun
  have hstep : ∃ T, import_step its ets wex i imports' =
      .exit 1 (T ++ not_found_report (wasm_importtype_name it)) := by
    rcases hcase with hn | ⟨j, hj, hv⟩
    · exact import_step_no_match its ets wex i imports' it hit (by omega) hn
    · exact import_step_null its ets wex i imports' it hit (by omega) j hj hv
  obtain ⟨T, hT⟩ := hstep
  refine ⟨it, T0 ++ T, hit, ?_⟩
  rw [h (by rw [hT]; intro a t hEq; cases hEq), hT]
  simp [Flow.prepend]

/-- The first import that is not resolved has its first match past the end of
the extern vector: the loop reads out of bounds there. -/
theorem resolve_imports_out_of_bounds (its : List wasm_importtype_t)
    (ets : List wasm_exporttype_t) (wex : List (Option wasm_extern_t)) (i : Nat)
    (hi : i < its.length) (hres : ∀ x, x < i → import_resolved its ets wex x)
    (hoob : import_out_of_bounds its ets wex i) :
    ∃ j T, wex.length ≤ j ∧
      resolve_imports its ets wex = .fault (T ++ [.load .wasi_exports j]) := by
  obtain ⟨imports', T0, hlen, h⟩ := resolve_imports_at_first its ets wex i hi hres
  obtain ⟨it, j, hit, hj, hv⟩ := hoob
  obtain ⟨T, hT⟩ := import_step_oob its ets wex i imports' it hit (by omega) j hj hv
  refine ⟨j, T0 ++ T, ?_, ?_⟩
  · by_contra hlt
    rw [List.getElem?_eq_getElem (by omega)] at hv
    cases hv
  · rw [h (by rw [hT]; intro a t hEq; cases hEq), hT]
    simp [Flow.prepend]

/-- The three ways the loop can end. -/
theorem resolve_imports_cases (its : List wasm_importtype_t)
    (ets : List wasm_exporttype_t) (wex : List (Option wasm_extern_t)) :
    ((∀ x, x < its.length → import_resolved its ets wex x) ∧
      ∃ imports T, resolve_imports its ets wex = .next imports T) ∨
    (∃ i, i < its.length ∧ (∀ x, x < i → import_resolved its ets wex x) ∧
      import_unresolved its ets wex i ∧ ∃ T, resolve_imports its ets wex = .exit 1 T) ∨
    (∃ i, i < its.length ∧ (∀ x, x < i → import_resolved its ets wex x) ∧
      import_out_of_bounds its ets wex i ∧ ∃ T, resolve_imports its ets wex = .fault T) := by
  by_cases hall : ∀ x, x < its.length → import_resolved its ets wex x
  · obtain ⟨imports, T, h, _⟩ := resolve_imports_resolved its ets wex hall
    exact Or.inl ⟨hall, imports, T, h⟩
  · have hex : ∃ x, x < its.length ∧ ¬ import_resolved its ets wex x := by
      by_contra hne
      exact hall fun x hx => by
        by_contra hnr
        exact hne ⟨x, hx, hnr⟩
    classical
    have hspec := Nat.find_spec hex
    have hmin : ∀ x, x < Nat.find hex → import_resolved its ets wex x := by
      intro x hx
      by_contra hnr
      exact Nat.find_min hex hx ⟨Nat.lt_trans hx hspec.1, hnr⟩
    rcases import_classify its ets wex (Nat.find hex) hspec.1 with h | h | h
    · exact absurd h hspec.2
    · obtain ⟨it, T, _, hT⟩ :=
        resolve_imports_unresolved its ets wex (Nat.find hex) hspec.1 hmin h
      exact Or.inr (Or.inl ⟨Nat.find hex, hspec.1, hmin, h, _, hT⟩)
    · obtain ⟨j, T, _, hT⟩ :=
        resolve_imports_out_of_bounds its ets wex (Nat.find hex) hspec.1 hmin h
      exact Or.inr (Or.inr ⟨Nat.find hex, hspec.1, hmin, h, _, hT⟩)

/-- A table the loop hands on is complete: every import is resolved and every
slot holds the extern value of its import. -/
theorem resolve_imports_next (its : List wasm_importtype_t)
    (ets : List wasm_exporttype_t) (wex : List (Option wasm_extern_t))
    (imports : List (Option wasm_extern_t)) (T : List Event)
    (h : resolve_imports its ets wex = .next imports T) :
    imports.length = its.length ∧
      ∀ x, x < its.length → ∃ it v, its[x]? = some it ∧
        resolved_to (wasm_importtype_name it) ets wex v ∧ imports[x]? = some (some v) := by
  rcases resolve_imports_cases its ets wex with ⟨hall, _⟩ | ⟨i, _, _, _, T', hT⟩ |
      ⟨i, _, _, _, T', hT⟩
  · obtain ⟨imports', T', h', hlen, hfilled⟩ := resolve_imports_resolved its ets wex hall
    rw [h] at h'
    cases h'
    exact ⟨hlen, hfilled⟩
  · rw [h] at hT; cases hT
  · rw [h] at hT; cases hT

theorem resolve_imports_events (its : List wasm_importtype_t)
    (ets : List wasm_exporttype_t) (wex : List (Option wasm_extern_t)) :
    ∀ e ∈ (resolve_imports its ets wex).trace,
      e.of_resolution (List.range its.length) ets.length :=
  outer_loop_events its ets wex _ _

/-! ## `main` around the resolution -/

theorem setup_of_reaches_exports (w : World) (guest wm : wasm_module_t) (wi : wasm_instance_t)
    (h : reaches_exports w guest wm wi) :
    setup w =
      if wi.exports.length = 0 then
        .exit 1 (setup_events wm ++ [.printf "> Error accessing WASI exports!\n"])
      else .next (guest, wm, wi.exports) (setup_events wm) := by
  obtain ⟨bytes, h1, h2, h3, h4, h5⟩ := h
  by_cases h6 : wi.exports.length = 0 <;>
    simp [setup, h1, h2, h3, h4, h5, h6, Flow.bind, Flow.prepend, setup_events]

/-- How the lines before the resolution end: `main` returns 1 without having
instantiated anything with an imports table, or it reaches the resolution. -/
theorem setup_cases (w : World) :
    (∃ T, setup w = .exit 1 T ∧ ∀ e ∈ T, e.is_guest_instantiation = false) ∨
    ∃ guest wm wi, reaches_resolution w guest wm wi ∧
      setup w = .next (guest, wm, wi.exports) (setup_events wm) := by
  cases h1 : w.file with
  | none =>
    left
    refine ⟨_, by simp [setup, h1, Flow.bind, Flow.prepend]; rfl, ?_⟩
    intro e he
    simp only [List.mem_cons, List.mem_singleton, List.not_mem_nil, or_false] at he
    rcases he with he | he | he <;> subst he <;> rfl
  | some bytes =>
    by_cases h2 : fread_items w bytes = 1
    · cases h3 : w.wasm_module_new bytes with
      | none =>
        left
        refine ⟨_, by simp [setup, h1, h2, h3, Flow.bind, Flow.prepend]; rfl, ?_⟩
        intro e he
        simp only [List.mem_cons, List.mem_singleton, List.not_mem_nil, or_false] at he
        rcases he with he | he | he | he <;> subst he <;> rfl
      | some guest =>
        cases h4 : w.wasmtime_wasi_module_new with
        | none =>
          left
          refine ⟨_, by simp [setup, h1, h2, h3, h4, Flow.bind, Flow.prepend]; rfl, ?_⟩
          intro e he
          simp only [List.mem_cons, List.mem_singleton, List.not_mem_nil, or_false] at he
          rcases he with he | he | he | he | he <;> subst he <;> rfl
        | some wm =>
          cases h5 : w.wasm_instance_new wm none with
          | none =>
            left
            refine ⟨_, by simp [setup, h1, h2, h3, h4, h5, Flow.bind, Flow.prepend]; rfl, ?_⟩
            intro e he
            simp only [List.mem_cons, List.mem_singleton, List.not_mem_nil, or_false] at he
            rcases he with he | he | he | he | he | he | he <;> subst he <;> rfl
          | some wi =>
            have hr : reaches_exports w guest wm wi := ⟨bytes, h1, h2, h3, h4, h5⟩
            by_cases h6 : wi.exports.length = 0
            · left
              refine ⟨_, by rw [setup_of_reaches_exports w guest wm wi hr, if_pos h6], ?_⟩
              intro e he
              simp only [setup_events, List.cons_append, List.nil_append, List.mem_cons,
                List.mem_singleton, List.not_mem_nil, or_false] at he
              rcases he with he | he | he | he | he | he | he | he <;> subst he <;> rfl
            · right
              exact ⟨guest, wm, wi, ⟨hr, h6⟩,
                by rw [setup_of_reaches_exports w guest wm wi hr, if_neg h6]⟩
    · left
      refine ⟨_, by simp [setup, h1, h2, Flow.bind, Flow.prepend]; rfl, ?_⟩
      intro e he
      simp only [List.mem_cons, List.mem_singleton, List.not_mem_nil, or_false] at he
      rcases he with he | he | he <;> subst he <;> rfl

theorem main_of_reaches (w : World) (guest wm : wasm_module_t) (wi : wasm_instance_t)
    (h : reaches_resolution w guest wm wi) :
    main w =
      ((resolve_imports guest.imports wm.exports wi.exports).bind
        (finish w guest wi.exports)).prepend (prologue wm) := by
  unfold main
  rw [setup_of_reaches_exports w guest wm wi h.1, if_neg h.2]
  simp only [Flow.bind, Flow.prepend_prepend, prologue]

/-! ## Names and matches -/

theorem exists_first_match_of_mem (name : wasm_name_t) (ets : List wasm_exporttype_t)
    (et : wasm_exporttype_t) (hmem : et ∈ ets) (hname : name = wasm_exporttype_name et) :
    ∃ j, is_first_match name ets j := by
  rcases no_match_or_first_match name ets with hn | h
  · obtain ⟨k, hk, hget⟩ := List.getElem_of_mem hmem
    have := hn k hk
    have hm : export_matches name ets k = true := by
      rw [export_matches_true_iff]
      exact ⟨et, by rw [List.getElem?_eq_getElem hk, hget], (is_name_same_iff_eq _ _).2 hname⟩
    rw [hm] at this
    cases this
  · exact h

theorem import_step_congr (its1 its2 : List wasm_importtype_t) (ets : List wasm_exporttype_t)
    (wex : List (Option wasm_extern_t)) (i : Nat) (imports : List (Option wasm_extern_t))
    (h : (its1[i]?).map wasm_importtype_name = (its2[i]?).map wasm_importtype_name) :
    import_step its1 ets wex i imports = import_step its2 ets wex i imports := by
  cases h1 : its1[i]? with
  | none =>
    cases h2 : its2[i]? with
    | none => simp [import_step, array_load_none _ _ _ h1, array_load_none _ _ _ h2]
    | some it2 => rw [h1, h2] at h; cases h
  | some it1 =>
    cases h2 : its2[i]? with
    | none => rw [h1, h2] at h; cases h
    | some it2 =>
      rw [h1, h2] at h
      simp only [Option.map_some', Option.some.injEq] at h
      simp only [import_step, array_load_some _ _ _ _ h1, array_load_some _ _ _ _ h2]
      show Flow.prepend _ _ = Flow.prepend _ _
      beta_reduce
      rw [h]

theorem outer_loop_congr (its1 its2 : List wasm_importtype_t) (ets : List wasm_exporttype_t)
    (wex : List (Option wasm_extern_t))
    (h : ∀ i : Nat,
      (its1[i]?).map wasm_importtype_name = (its2[i]?).map wasm_importtype_name)
    (is : List Nat) :
    ∀ imports, outer_loop its1 ets wex imports is = outer_loop its2 ets wex imports is := by
  induction is with
  | nil => intro imports; rfl
  | cons i is ih =>
    intro imports
    simp only [outer_loop, import_step_congr its1 its2 ets wex i imports (h i)]
    congr 1
    funext imports'
    exact ih imports'

/-! ## After the resolution -/

theorem finish_not_func (w : World) (guest : wasm_module_t)
    (wex imports : List (Option wasm_extern_t)) (e0 : Option wasm_extern_t)
    (h0 : wex[0]? = some e0) (hf : wasm_extern_as_func e0 = none) :
    finish w guest wex imports =
      .exit 1 [.load .wasi_exports 0, .printf "> Error accessing WASI export!\n"] := by
  simp [finish, array_load_some _ _ _ _ h0, Flow.bind, hf, Flow.prepend]

theorem finish_func (w : World) (guest : wasm_module_t)
    (wex imports : List (Option wasm_extern_t)) (e0 : Option wasm_extern_t)
    (f : wasm_func_t) (h0 : wex[0]? = some e0) (hf : wasm_extern_as_func e0 = some f) :
    finish w guest wex imports =
      match w.wasm_instance_new guest (some imports) with
      | none => .exit 1 [.load .wasi_exports 0, .printf "Instantiating module...\n",
          .instance_new guest (some imports), .printf "> Error instantiating module!\n"]
      | some _ => .exit 0 [.load .wasi_exports 0, .printf "Instantiating module...\n",
          .instance_new guest (some imports), .printf "Shutting down...\n",
          .printf "Done.\n"] := by
  cases hi : w.wasm_instance_new guest (some imports) <;>
    simp [finish, array_load_some _ _ _ _ h0, Flow.bind, hf, Flow.prepend, hi]

theorem prologue_events (wm : wasm_module_t) :
    ∀ e ∈ prologue wm, (∃ s, e = .printf s) ∨ e = .instance_new wm none := by
  intro e he
  simp only [prologue, setup_events, List.cons_append, List.nil_append, List.mem_cons,
    List.mem_singleton, List.not_mem_nil, or_false] at he
  rcases he with he | he | he | he | he | he | he | he <;> subst he <;> simp

theorem Event.of_resolution_not_instantiation (is : List Nat) (m : Nat) (e : Event)
    (he : e.of_resolution is m) : e.is_guest_instantiation = false := by
  cases e with
  | instance_new g imports => simp [Event.of_resolution] at he
  | _ => rfl

/-- The loop whose first import that is not resolved is `i` is the loop over
the imports `0..i`. -/
theorem resolve_imports_stops_at (its : List wasm_importtype_t)
    (ets : List wasm_exporttype_t) (wex : List (Option wasm_extern_t)) (i : Nat)
    (hi : i < its.length) (hres : ∀ x, x < i → import_resolved its ets wex x)
    (hnot : import_unresolved its ets wex i ∨ import_out_of_bounds its ets wex i) :
    resolve_imports its ets wex =
      outer_loop its ets wex (List.replicate its.length none) (List.range (i + 1)) := by
  obtain ⟨post, hp⟩ := range_prefix its.length i hi
  have hcase : (∃ T, resolve_imports its ets wex = .exit 1 T) ∨
      ∃ T, resolve_imports its ets wex = .fault T := by
    rcases hnot with h | h
    · obtain ⟨_, T, _, hT⟩ := resolve_imports_unresolved its ets wex i hi hres h
      exact Or.inl ⟨_, hT⟩
    · obtain ⟨_, T, _, hT⟩ := resolve_imports_out_of_bounds its ets wex i hi hres h
      exact Or.inr ⟨_, hT⟩
  obtain ⟨imports', T0, hpre, hlen, _, _⟩ := outer_loop_prefix its ets wex
    (List.replicate its.length none) i (by simp; omega) hres
  have hstep : (∃ T, import_step its ets wex i imports' = .exit 1 T) ∨
      ∃ T, import_step its ets wex i imports' = .fault T := by
    have hlen' : i < imports'.length := by rw [hlen]; simpa using hi
    rcases hnot with ⟨it, hit, hn | ⟨j, hj, hv⟩⟩ | ⟨it, j, hit, hj, hv⟩
    · obtain ⟨T, hT⟩ := import_step_no_match its ets wex i imports' it hit hlen' hn
      exact Or.inl ⟨_, hT⟩
    · obtain ⟨T, hT⟩ := import_step_null its ets wex i imports' it hit hlen' j hj hv
      exact Or.inl ⟨_, hT⟩
    · obtain ⟨T, hT⟩ := import_step_oob its ets wex i imports' it hit hlen' j hj hv
      exact Or.inr ⟨_, hT⟩
  have hupto : outer_loop its ets wex (List.replicate its.length none) (List.range (i + 1)) =
      (import_step its ets wex i imports').prepend T0 := by
    rw [List.range_succ, outer_loop_append, hpre]
    simp only [Flow.bind, outer_loop_singleton]
  unfold resolve_imports
  rw [hp, outer_loop_append, hupto]
  rcases hstep with ⟨T, hT⟩ | ⟨T, hT⟩ <;> rw [hT] <;> rfl

theorem Event.in_bounds_of_resolution (n m k : Nat) (hmk : m ≤ k) (e : Event)
    (he : e.of_resolution (List.range n) m) : e.in_bounds n m k := by
  cases e with
  | load a x =>
    cases a <;> simp only [Event.of_resolution, List.mem_range] at he <;>
      simp only [Event.in_bounds] <;> omega
  | store a x =>
    cases a
    all_goals simp only [Event.of_resolution, List.mem_range] at he
    simp only [Event.in_bounds]
    omega
  | _ => simp [Event.in_bounds]

theorem first_export_cases (wex : List (Option wasm_extern_t)) (h : wex.length ≠ 0) :
    (first_export_is_func wex = true ∧
      ∃ e0 f, wex[0]? = some e0 ∧ wasm_extern_as_func e0 = some f) ∨
    (first_export_is_func wex = false ∧
      ∃ e0, wex[0]? = some e0 ∧ wasm_extern_as_func e0 = none) := by
  have h0 : wex[0]? = some (wex[0]) := List.getElem?_eq_getElem (by omega)
  unfold first_export_is_func
  rw [h0]
  cases hf : wasm_extern_as_func wex[0] with
  | none => exact Or.inr ⟨by simp [hf], _, rfl, hf⟩
  | some f => exact Or.inl ⟨by simp [hf], _, f, rfl, hf⟩

/-- A run that reaches the resolution and resolves every import, written out. -/
theorem main_of_resolved (w : World) (guest wm : wasm_module_t) (wi : wasm_instance_t)
    (imports : List (Option wasm_extern_t)) (T : List Event)
    (hreach : reaches_resolution w guest wm wi)
    (hres : resolve_imports guest.imports wm.exports wi.exports = .next imports T) :
    main w = (finish w guest wi.exports imports).prepend (prologue wm ++ T) := by
  rw [main_of_reaches w guest wm wi hreach, hres]
  simp only [Flow.bind, Flow.prepend_prepend]

/-- A run that resolves every import and fails the test of the export at
position 0 instantiates nothing with an imports table. -/
theorem export_check_events (w : World) (guest wm : wasm_module_t)
    (wi : wasm_instance_t) (imports : List (Option wasm_extern_t)) (T : List Event)
    (hreach : reaches_resolution w guest wm wi)
    (hres : resolve_imports guest.imports wm.exports wi.exports = .next imports T)
    (hb : first_export_is_func wi.exports = false) :
    ∀ e ∈ (main w).trace, e.is_guest_instantiation = false := by
  have hmain := main_of_resolved w guest wm wi imports T hreach hres
  rcases first_export_cases wi.exports hreach.2 with ⟨hb', _⟩ | ⟨_, e0, h0, hf⟩
  · rw [hb] at hb'; cases hb'
  · rw [finish_not_func w guest wi.exports imports e0 h0 hf] at hmain
    simp only [Flow.prepend] at hmain
    intro e he
    rw [hmain] at he
    simp only [Flow.trace, List.append_assoc, List.mem_append, List.mem_cons,
      List.mem_singleton, List.not_mem_nil, or_false] at he
    rcases he with he | he | he | he
    · rcases prologue_events wm _ he with ⟨s, hs⟩ | hs <;> subst hs <;> rfl
    · have hin : e ∈ (resolve_imports guest.imports wm.exports wi.exports).trace := by
        rw [hres]; exact he
      exact Event.of_resolution_not_instantiation _ _ e
        (resolve_imports_events _ _ _ e hin)
    · subst he; rfl
    · subst he; rfl

theorem import_resolved_not_unresolved (its : List wasm_importtype_t)
    (ets : List wasm_exporttype_t) (wex : List (Option wasm_extern_t)) (x : Nat)
    (hr : import_resolved its ets wex x) (hu : import_unresolved its ets wex x) : False := by
  obtain ⟨it, v, hit, j, hj, hv⟩ := hr
  obtain ⟨it', hit', hcase⟩ := hu
  rw [hit] at hit'
  cases hit'
  rcases hcase with hn | ⟨j', hj', hv'⟩
  · exact no_match_not_first_match _ ets j hn hj
  · have := is_first_match_unique _ ets j j' hj hj'
    subst this
    rw [hv] at hv'
    cases hv'

/-! ## Matched and unmatched imports -/

/-- When every import name equals the name of some export and the extern
pointer at the first matching export position of every import is in range and
not `NULL`, the loop hands on a full table of those extern values. -/
theorem resolve_imports_of_matches (its : List wasm_importtype_t) (ets : List wasm_exporttype_t)
    (wex : List (Option wasm_extern_t))
    (haligned : ets.length = wex.length)
    (hmatch : ∀ it ∈ its, ∃ et ∈ ets, wasm_importtype_name it = wasm_exporttype_name et)
    (hnonnull : ∀ it ∈ its, ∀ j, j < ets.length →
      is_first_match (wasm_importtype_name it) ets j → wex[j]? ≠ some none) :
    ∃ imports T, resolve_imports its ets wex = .next imports T ∧
      imports.length = its.length ∧ (∀ p ∈ imports, p ≠ none) ∧
      ∀ (i : Nat) (it : wasm_importtype_t), its[i]? = some it → ∃ (j : Nat) (v : wasm_extern_t),
        is_first_match (wasm_importtype_name it) ets j ∧ wex[j]? = some (some v) ∧
        imports[i]? = some (some v) := by
  have hres : ∀ x, x < its.length → import_resolved its ets wex x := by
    intro x hx
    have hmem : its[x] ∈ its := List.getElem_mem hx
    obtain ⟨et, het, hname⟩ := hmatch _ hmem
    obtain ⟨j, hj⟩ := exists_first_match_of_mem _ ets et het hname
    have hjlt := export_matches_lt _ ets j hj.1
    have hnn := hnonnull _ hmem j hjlt hj
    have hget : wex[j]? = some (wex[j]) := List.getElem?_eq_getElem (by omega)
    cases hv : wex[j] with
    | none => rw [hv] at hget; exact absurd hget hnn
    | some v => rw [hv] at hget; exact ⟨_, v, List.getElem?_eq_getElem hx, j, hj, hget⟩
  obtain ⟨imports, T, h, hlen, hfilled⟩ := resolve_imports_resolved its ets wex hres
  refine ⟨imports, T, h, hlen, ?_, ?_⟩
  · intro p hp hnull
    obtain ⟨k, hk, hget⟩ := List.getElem_of_mem hp
    obtain ⟨_, v, _, _, hslot⟩ := hfilled k (by omega)
    rw [List.getElem?_eq_getElem hk, hget, hnull] at hslot
    cases hslot
  · intro i it hit
    have hi : i < its.length := (List.getElem?_eq_some_iff.1 hit).1
    obtain ⟨it', v, hit', ⟨j, hj, hv⟩, hslot⟩ := hfilled i hi
    rw [hit] at hit'
    cases hit'
    exact ⟨j, v, hj, hv, hslot⟩

theorem getElem?_map_some {α : Type} (xs : List α) (j : Nat) (h : j < xs.length) :
    (xs.map some)[j]? = some (some xs[j]) := by
  simp [List.getElem?_map, List.getElem?_eq_getElem h]

/-- C3: `is_name_same` returns true exactly when the two names have the same
size and the same byte at every position; `"Run"` is not the same as `"run"`,
a name is not the same as a proper extension or a proper prefix of itself, and
two empty names are the same. -/
theorem is_name_same_byte_exact :
    (∀ name other : wasm_name_t, is_name_same name other = true ↔
      (name.size = other.size ∧ ∀ k, k < name.size → name.data[k]? = other.data[k]?)) ∧
    is_name_same (name_of "Run") (name_of "run") = false ∧
    (∀ (name : wasm_name_t) (b : Nat) (bs : List Nat),
      is_name_same name ⟨name.data ++ b :: bs⟩ = false ∧
      is_name_same ⟨name.data ++ b :: bs⟩ name = false) ∧
    is_name_same ⟨[]⟩ ⟨[]⟩ = true := by
  refine ⟨?_, by decide, ?_, by decide⟩
  · intro name other
    rw [is_name_same_iff_eq]
    constructor
    · intro h; subst h; exact ⟨rfl, fun _ _ => rfl⟩
    · intro ⟨hsize, hbytes⟩
      cases name with
      | mk a =>
        cases other with
        | mk b =>
          simp only [wasm_byte_vec_t.size] at hsize hbytes
          congr 1
          apply List.ext_getElem?
          intro k
          by_cases hk : k < a.length
          · exact hbytes k hk
          · rw [List.getElem?_eq_none (by omega), List.getElem?_eq_none (by omega)]
  · intro name b bs
    constructor
    · cases h : is_name_same name ⟨name.data ++ b :: bs⟩ with
      | false => rfl
      | true =>
        have := congrArg (fun n : wasm_name_t => n.data.length) ((is_name_same_iff_eq _ _).1 h)
        simp at this
    · cases h : is_name_same ⟨name.data ++ b :: bs⟩ name with
      | false => rfl
      | true =>
        have := congrArg (fun n : wasm_name_t => n.data.length) ((is_name_same_iff_eq _ _).1 h)
        simp at this

/-- C1: for every import list and every provider whose export descriptors and
extern values (handles of the provider instance, so never `NULL`) are aligned
and equal in length, if every import name equals the name of at least one
export, the loop completes without reporting an error; the table has
`len(imports)` entries, none `NULL`, and entry `i` is the provider extern value
at the first export position whose name matches import `i`. -/
theorem resolve_imports_complete (its : List wasm_importtype_t)
    (ets : List wasm_exporttype_t) (externs : List wasm_extern_t)
    (haligned : ets.length = externs.length)
    (hmatch : ∀ it ∈ its, ∃ et ∈ ets, wasm_importtype_name it = wasm_exporttype_name et) :
    ∃ imports T, resolve_imports its ets (externs.map some) = .next imports T ∧
      imports.length = its.length ∧ (∀ p ∈ imports, p ≠ none) ∧
      ∀ (i : Nat) (it : wasm_importtype_t), its[i]? = some it → ∃ (j : Nat) (v : wasm_extern_t),
        is_first_match (wasm_importtype_name it) ets j ∧ externs[j]? = some v ∧
        imports[i]? = some (some v) := by
  obtain ⟨imports, T, h, hlen, hnn, hslots⟩ :=
    resolve_imports_of_matches its ets (externs.map some) (by simpa using haligned) hmatch
      (by
        intro it _ j hj _
        rw [getElem?_map_some externs j (by omega)]
        simp)
  refine ⟨imports, T, h, hlen, hnn, ?_⟩
  intro i it hit
  obtain ⟨j, v, hj, hv, hslot⟩ := hslots i it hit
  have hjlt : j < externs.length := by
    have := export_matches_lt _ ets j hj.1
    omega
  rw [getElem?_map_some externs j hjlt] at hv
  simp only [Option.some.injEq] at hv
  exact ⟨j, v, hj, by rw [List.getElem?_eq_getElem hjlt, hv], hslot⟩

/-- Witness of C1: the imports `fd_write`, `proc_exit` against the exports
`fd_write`, `proc_exit`, `args_get` give the table `[provider[0], provider[1]]`. -/
theorem resolve_imports_complete_witness :
    (∃ imports T,
      resolve_imports [import_fd_write, import_proc_exit]
        [export_fd_write, export_proc_exit, export_args_get]
        ([func_handle 0, func_handle 1, func_handle 2].map some) = .next imports T ∧
      imports.length = [import_fd_write, import_proc_exit].length ∧
      (∀ p ∈ imports, p ≠ none) ∧
      ∀ (i : Nat) (it : wasm_importtype_t),
        [import_fd_write, import_proc_exit][i]? = some it → ∃ (j : Nat) (v : wasm_extern_t),
        is_first_match (wasm_importtype_name it)
          [export_fd_write, export_proc_exit, export_args_get] j ∧
        [func_handle 0, func_handle 1, func_handle 2][j]? = some v ∧
        imports[i]? = some (some v)) ∧
    resolve_imports [import_fd_write, import_proc_exit]
        [export_fd_write, export_proc_exit, export_args_get]
        ([func_handle 0, func_handle 1, func_handle 2].map some) =
      .next [some (func_handle 0), some (func_handle 1)]
        [.load .import_types 0, .store .imports 0, .load .export_types 0,
          .compare (name_of "fd_write") (name_of "fd_write"), .load .wasi_exports 0,
          .store .imports 0, .load .imports 0,
          .load .import_types 1, .store .imports 1, .load .export_types 0,
          .compare (name_of "proc_exit") (name_of "fd_write"), .load .export_types 1,
          .compare (name_of "proc_exit") (name_of "proc_exit"), .load .wasi_exports 1,
          .store .imports 1, .load .imports 1] :=
  ⟨resolve_imports_complete [import_fd_write, import_proc_exit]
      [export_fd_write, export_proc_exit, export_args_get]
      [func_handle 0, func_handle 1, func_handle 2] (by decide) (by decide),
    by decide⟩

/-- C4: the scan for an import whose name first matches at export index `j`
(the extern vector covering the export descriptors) stores the extern value at
`j` in the import's slot, whatever the kinds and types of the exports and of
the import and whatever follows `j`; it reads no export descriptor and no
extern value at an index greater than `j`; and in a table the whole loop hands
on, the slot of an import with that name holds the extern value at `j`. -/
theorem first_match_selected (name : wasm_name_t) (ets : List wasm_exporttype_t)
    (wex : List (Option wasm_extern_t)) (i : Nat) (imports : List (Option wasm_extern_t))
    (j : Nat) (hj : is_first_match name ets j) (hcover : ets.length ≤ wex.length)
    (hi : i < imports.length) :
    ∃ p T, wex[j]? = some p ∧
      inner_loop name ets wex i imports (List.range ets.length) =
        .next (imports.set i p) T ∧
      (∀ e ∈ T, ∀ k, e = .load .export_types k ∨ e = .load .wasi_exports k → k ≤ j) ∧
      (∀ (its : List wasm_importtype_t) (it : wasm_importtype_t)
        (table : List (Option wasm_extern_t)) (T' : List Event) (x : Nat),
        its[x]? = some it → wasm_importtype_name it = name →
        resolve_imports its ets wex = .next table T' → table[x]? = some p) := by
  have hjlt : j < wex.length := Nat.lt_of_lt_of_le (export_matches_lt name ets j hj.1) hcover
  have hv : wex[j]? = some (wex[j]) := List.getElem?_eq_getElem hjlt
  have hloop := inner_loop_first_match name ets wex i imports j hj
  rw [array_load_some _ _ _ _ hv] at hloop
  simp only [Flow.bind, Flow.prepend, array_store_lt _ _ _ _ hi] at hloop
  refine ⟨wex[j], _, hv, hloop, ?_, ?_⟩
  · intro e he k hk
    have hev : e ∈ (inner_loop name ets wex i imports (List.range ets.length)).trace := by
      rw [hloop]; exact he
    rw [inner_loop_stops name ets wex i imports j hj] at hev
    have := inner_loop_events name ets wex i imports _ e hev
    rcases hk with hk | hk <;> subst hk <;>
      simp only [Event.of_scan, List.mem_range] at this <;> omega
  · intro its it table T' x hit hname hres
    have hx : x < its.length := (List.getElem?_eq_some_iff.1 hit).1
    obtain ⟨it', v, hit', ⟨j', hj', hv'⟩, hslot⟩ :=
      (resolve_imports_next its ets wex table T' hres).2 x hx
    rw [hit] at hit'
    cases hit'
    rw [hname] at hj'
    have hjj := is_first_match_unique name ets j j' hj hj'
    subst hjj
    rw [hslot, ← hv', hv]

/-- Witness of C4: two exports are named `fd_write`, the first a global and the
second a function; the scan for the function import `fd_write` selects the
extern at position 0, the global. -/
theorem first_match_selected_witness :
    (∃ p T, [extern_global 7, extern_func 8][0]? = some p ∧
      inner_loop (name_of "fd_write") [export_fd_write_global, export_fd_write]
          [extern_global 7, extern_func 8] 0 [none]
          (List.range [export_fd_write_global, export_fd_write].length) =
        .next ([none].set 0 p) T ∧
      (∀ e ∈ T, ∀ k, e = .load .export_types k ∨ e = .load .wasi_exports k → k ≤ 0) ∧
      (∀ (its : List wasm_importtype_t) (it : wasm_importtype_t)
        (table : List (Option wasm_extern_t)) (T' : List Event) (x : Nat),
        its[x]? = some it → wasm_importtype_name it = name_of "fd_write" →
        resolve_imports its [export_fd_write_global, export_fd_write]
          [extern_global 7, extern_func 8] = .next table T' → table[x]? = some p)) ∧
    resolve_imports [import_fd_write] [export_fd_write_global, export_fd_write]
        [extern_global 7, extern_func 8] =
      .next [extern_global 7]
        [.load .import_types 0, .store .imports 0, .load .export_types 0,
          .compare (name_of "fd_write") (name_of "fd_write"), .load .wasi_exports 0,
          .store .imports 0, .load .imports 0] :=
  ⟨first_match_selected (name_of "fd_write") [export_fd_write_global, export_fd_write]
      [extern_global 7, extern_func 8] 0 [none] 0 (by decide) (by decide) (by decide),
    by decide⟩

/-- C5: two import lists of the same length whose imports have pairwise the
same names, whatever their module namespaces and kinds, give the same outcome
of the resolution loop against any provider: the same table, or the same
failure with the same events, reported name included. -/
theorem resolution_namespace_blind (its1 its2 : List wasm_importtype_t)
    (ets : List wasm_exporttype_t) (wex : List (Option wasm_extern_t))
    (hlen : its1.length = its2.length)
    (hnames : ∀ (i : Nat) (it1 it2 : wasm_importtype_t), its1[i]? = some it1 →
      its2[i]? = some it2 → wasm_importtype_name it1 = wasm_importtype_name it2) :
    resolve_imports its1 ets wex = resolve_imports its2 ets wex := by
  have h : ∀ i : Nat, (its1[i]?).map wasm_importtype_name =
      (its2[i]?).map wasm_importtype_name := by
    intro i
    by_cases hi : i < its1.length
    · have h1 : its1[i]? = some (its1[i]) := List.getElem?_eq_getElem hi
      have h2 : its2[i]? = some (its2[i]) := List.getElem?_eq_getElem (by omega)
      rw [h1, h2]
      simp only [Option.map_some', Option.some.injEq]
      exact hnames i _ _ h1 h2
    · rw [List.getElem?_eq_none (by omega), List.getElem?_eq_none (by omega)]
  unfold resolve_imports
  rw [hlen]
  exact outer_loop_congr its1 its2 ets wex h _ _

/-- Witness of C5: `("wasi_unstable", "fd_write")`, a function, and
`("env", "fd_write")`, a global, resolve to the same extern value. -/
theorem resolution_namespace_blind_witness :
    resolve_imports [import_fd_write] [export_fd_write, export_proc_exit]
        [extern_func 0, extern_func 1] =
      resolve_imports [import_env_fd_write] [export_fd_write, export_proc_exit]
        [extern_func 0, extern_func 1] ∧
    resolve_imports [import_env_fd_write] [export_fd_write, export_proc_exit]
        [extern_func 0, extern_func 1] =
      .next [extern_func 0]
        [.load .import_types 0, .store .imports 0, .load .export_types 0,
          .compare (name_of "fd_write") (name_of "fd_write"), .load .wasi_exports 0,
          .store .imports 0, .load .imports 0] :=
  ⟨resolution_namespace_blind [import_fd_write] [import_env_fd_write]
      [export_fd_write, export_proc_exit] [extern_func 0, extern_func 1] (by decide)
      (by
        intro i it1 it2 h1 h2
        match i with
        | 0 =>
          simp only [List.getElem?_cons_zero, Option.some.injEq] at h1 h2
          subst h1; subst h2; rfl
        | k + 1 => simp at h1),
    by decide⟩

/-- C6: in every run of `main`, (1) an instantiation with an imports table is
the instantiation of the guest with a table that has one non-null entry for
each of the guest's imports, each the extern value its import resolves to;
(2) a run that reaches the loop and whose first unresolved import is `i`
returns 1 without any instantiation with an imports table and without reading
an import descriptor after `i`; (3) a run that reaches the loop with an extern
vector covering the export descriptors and some import unresolved returns 1
without any instantiation with an imports table. -/
theorem instantiation_only_after_resolution (w : World) :
    (∀ (m : wasm_module_t) (imports : List (Option wasm_extern_t)),
      Event.instance_new m (some imports) ∈ (main w).trace →
      ∃ wm wi, reaches_resolution w m wm wi ∧ imports.length = m.imports.length ∧
        ∀ x, x < m.imports.length → ∃ it v, m.imports[x]? = some it ∧
          resolved_to (wasm_importtype_name it) wm.exports wi.exports v ∧
          imports[x]? = some (some v)) ∧
    (∀ (guest wm : wasm_module_t) (wi : wasm_instance_t) (i : Nat),
      reaches_resolution w guest wm wi → i < guest.imports.length →
      (∀ x, x < i → import_resolved guest.imports wm.exports wi.exports x) →
      import_unresolved guest.imports wm.exports wi.exports i →
      ∃ T, main w = .exit 1 T ∧ (∀ e ∈ T, e.is_guest_instantiation = false) ∧
        ∀ k, Event.load .import_types k ∈ T → k ≤ i) ∧
    (∀ (guest wm : wasm_module_t) (wi : wasm_instance_t),
      reaches_resolution w guest wm wi → wm.exports.length ≤ wi.exports.length →
      (∃ i, import_unresolved guest.imports wm.exports wi.exports i) →
      ∃ T, main w = .exit 1 T ∧ ∀ e ∈ T, e.is_guest_instantiation = false) := by
  refine ⟨?_, ?_, ?_⟩
  · intro m imports hmem
    rcases setup_cases w with ⟨T, hT, hno⟩ | ⟨guest, wm, wi, hreach, _⟩
    · have hmain : main w = .exit 1 T := by simp [main, hT, Flow.bind]
      rw [hmain] at hmem
      have := hno _ hmem
      simp [Event.is_guest_instantiation] at this
    · rw [main_of_reaches w guest wm wi hreach, Flow.trace_prepend] at hmem
      rcases List.mem_append.1 hmem with h | h
      · rcases prologue_events wm _ h with ⟨s, hs⟩ | hs <;> cases hs
      · obtain ⟨R, hR, hR'⟩ := Flow.trace_bind
          (resolve_imports guest.imports wm.exports wi.exports) (finish w guest wi.exports)
        rw [hR] at h
        rcases List.mem_append.1 h with h | h
        · have := resolve_imports_events guest.imports wm.exports wi.exports _ h
          simp [Event.of_resolution] at this
        · rcases hR' with hR' | ⟨table, T, hres, hR'⟩
          · subst hR'; simp at h
          · rw [hR'] at h
            rcases first_export_cases wi.exports hreach.2 with
              ⟨_, e0, f, h0, hf⟩ | ⟨_, e0, h0, hf⟩
            · rw [finish_func w guest wi.exports table e0 f h0 hf] at h
              have hm : m = guest ∧ imports = table := by
                cases hinst : w.wasm_instance_new guest (some table) <;>
                  rw [hinst] at h <;>
                  simp only [Flow.trace, List.mem_cons, List.mem_singleton, List.not_mem_nil,
                    or_false, Event.instance_new.injEq, Option.some.injEq, reduceCtorEq,
                    false_or] at h <;>
                  exact h
              obtain ⟨hm1, hm2⟩ := hm
              subst hm1; subst hm2
              have := resolve_imports_next _ _ _ _ _ hres
              exact ⟨wm, wi, hreach, this.1, this.2⟩
            · rw [finish_not_func w guest wi.exports table e0 h0 hf] at h
              simp [Flow.trace] at h
  · intro guest wm wi i hreach hi hearlier hun
    obtain ⟨it, T, _, hT⟩ := resolve_imports_unresolved _ _ _ i hi hearlier hun
    have hstop := resolve_imports_stops_at _ _ _ i hi hearlier (Or.inl hun)
    have hev : ∀ e ∈ T ++ not_found_report (wasm_importtype_name it),
        e.of_resolution (List.range (i + 1)) wm.exports.length := by
      intro e he
      have hin : e ∈ (resolve_imports guest.imports wm.exports wi.exports).trace := by
        rw [hT]; exact he
      rw [hstop] at hin
      exact outer_loop_events _ _ _ _ _ e hin
    refine ⟨prologue wm ++ (T ++ not_found_report (wasm_importtype_name it)), ?_, ?_, ?_⟩
    · rw [main_of_reaches w guest wm wi hreach, hT]
      simp [Flow.bind, Flow.prepend]
    · intro e he
      rcases List.mem_append.1 he with h | h
      · rcases prologue_events wm _ h with ⟨s, hs⟩ | hs <;> subst hs <;> rfl
      · exact Event.of_resolution_not_instantiation _ _ e (hev e h)
    · intro k hk
      rcases List.mem_append.1 hk with h | h
      · rcases prologue_events wm _ h with ⟨s, hs⟩ | hs <;> cases hs
      · have := hev _ h
        simp only [Event.of_resolution, List.mem_range] at this
        omega
  · intro guest wm wi hreach hcover ⟨i, hun⟩
    have hmain := main_of_reaches w guest wm wi hreach
    rcases resolve_imports_cases guest.imports wm.exports wi.exports with
      ⟨hall, _⟩ | ⟨_, _, _, _, T, hT⟩ | ⟨_, _, _, ⟨it, j, _, hj, hv⟩, _⟩
    · obtain ⟨it, hit, _⟩ := hun
      exact absurd (hall i (List.getElem?_eq_some_iff.1 hit).1) (fun hr =>
        import_resolved_not_unresolved _ _ _ i hr ⟨it, hit, by assumption⟩)
    · refine ⟨prologue wm ++ T, ?_, ?_⟩
      · rw [hmain, hT]
        simp [Flow.bind, Flow.prepend]
      · intro e he
        rcases List.mem_append.1 he with h | h
        · rcases prologue_events wm _ h with ⟨s, hs⟩ | hs <;> subst hs <;> rfl
        · have hin : e ∈ (resolve_imports guest.imports wm.exports wi.exports).trace := by
            rw [hT]; exact h
          exact Event.of_resolution_not_instantiation _ _ e
            (resolve_imports_events _ _ _ e hin)
    · have hjlt := export_matches_lt _ wm.exports j hj.1
      rw [List.getElem?_eq_getElem (by omega)] at hv
      cases hv

/-- Witness of C6: in the run of the guest importing `fd_write` and `proc_exit`
against the WASI provider, the guest is instantiated with
`[provider[0], provider[1]]`, a full table of resolved, non-null externs. -/
theorem instantiation_only_after_resolution_witness :
    ∃ wm wi,
      reaches_resolution (world_of [0] guest_cube provider_wasi provider_wasi_instance true)
        guest_cube wm wi ∧
      [extern_func 0, extern_func 1].length = guest_cube.imports.length ∧
      ∀ x, x < guest_cube.imports.length → ∃ it v, guest_cube.imports[x]? = some it ∧
        resolved_to (wasm_importtype_name it) wm.exports wi.exports v ∧
        [extern_func 0, extern_func 1][x]? = some (some v) :=
  (instantiation_only_after_resolution
    (world_of [0] guest_cube provider_wasi provider_wasi_instance true)).1
    guest_cube [extern_func 0, extern_func 1] (by decide)

/-- C7, as stated, fails: the run reaches the resolution and resolves every
import, and the engine would accept the instantiation of the guest with the
resolved table, yet `main` returns 1 and never instantiates the guest, because
the provider's export at position 0 is a memory, not a function. -/
theorem resolved_run_fails_before_instantiation :
    resolve_imports guest_importing_memory.imports provider_of_memory.exports
        provider_of_memory_instance.exports =
      .next [some ⟨.WASM_EXTERN_MEMORY, 0⟩]
        [.load .import_types 0, .store .imports 0, .load .export_types 0,
          .compare (name_of "memory") (name_of "memory"), .load .wasi_exports 0,
          .store .imports 0, .load .imports 0] ∧
    ((world_of [0] guest_importing_memory provider_of_memory
        provider_of_memory_instance true).wasm_instance_new guest_importing_memory
          (some [some ⟨.WASM_EXTERN_MEMORY, 0⟩])).isSome = true ∧
    main (world_of [0] guest_importing_memory provider_of_memory
        provider_of_memory_instance true) =
      .exit 1 [.printf "Initializing...\n", .printf "Loading binary...\n",
        .printf "Compiling module...\n", .printf "WASI module...\n",
        .printf "Instantiating WASI module...\n", .instance_new provider_of_memory none,
        .printf "Extracting WASI export...\n", .printf "Matching WASI imports...\n",
        .load .import_types 0, .store .imports 0, .load .export_types 0,
        .compare (name_of "memory") (name_of "memory"), .load .wasi_exports 0,
        .store .imports 0, .load .imports 0, .load .wasi_exports 0,
        .printf "> Error accessing WASI export!\n"] := by
  decide

/-- C7 (amended): in a run that reaches the resolution and resolves every
import, `main` returns 0 or 1; when the provider's export at position 0 is a
function the guest is instantiated with the resolved table, and `main` returns
0 exactly when that instantiate call returns an instance; `main` returns 1
exactly when the export at position 0 is not a function or the instantiate
call returns no instance, and in the first case the guest is not
instantiated. -/
theorem sequencer_after_resolution (w : World) (guest wm : wasm_module_t)
    (wi : wasm_instance_t) (imports : List (Option wasm_extern_t)) (T : List Event)
    (hreach : reaches_resolution w guest wm wi)
    (hres : resolve_imports guest.imports wm.exports wi.exports = .next imports T) :
    ((∃ T', main w = .exit 0 T') ∨ (∃ T', main w = .exit 1 T')) ∧
    (first_export_is_func wi.exports = true →
      Event.instance_new guest (some imports) ∈ (main w).trace) ∧
    ((∃ T', main w = .exit 0 T') ↔
      (first_export_is_func wi.exports = true ∧
        ∃ inst, w.wasm_instance_new guest (some imports) = some inst)) ∧
    ((∃ T', main w = .exit 1 T') ↔
      (first_export_is_func wi.exports = false ∨
        w.wasm_instance_new guest (some imports) = none)) ∧
    (first_export_is_func wi.exports = false →
      ∀ e ∈ (main w).trace, e.is_guest_instantiation = false) := by
  have hmain := main_of_resolved w guest wm wi imports T hreach hres
  rcases first_export_cases wi.exports hreach.2 with ⟨hb, e0, f, h0, hf⟩ | ⟨hb, e0, h0, hf⟩
  · rw [finish_func w guest wi.exports imports e0 f h0 hf] at hmain
    cases hinst : w.wasm_instance_new guest (some imports) with
    | none =>
      rw [hinst] at hmain
      simp only [Flow.prepend] at hmain
      refine ⟨Or.inr ⟨_, hmain⟩, ?_, ?_, ?_, ?_⟩
      · intro _; rw [hmain]; simp [Flow.trace]
      · constructor
        · rintro ⟨T', hT'⟩; rw [hmain] at hT'; cases hT'
        · rintro ⟨_, inst, hi⟩; cases hi
      · exact ⟨fun _ => Or.inr rfl, fun _ => ⟨_, hmain⟩⟩
      · intro hb'; rw [hb] at hb'; cases hb'
    | some inst =>
      rw [hinst] at hmain
      simp only [Flow.prepend] at hmain
      refine ⟨Or.inl ⟨_, hmain⟩, ?_, ?_, ?_, ?_⟩
      · intro _; rw [hmain]; simp [Flow.trace]
      · exact ⟨fun _ => ⟨hb, inst, rfl⟩, fun _ => ⟨_, hmain⟩⟩
      · constructor
        · rintro ⟨T', hT'⟩; rw [hmain] at hT'; cases hT'
        · rintro (hb' | hi)
          · rw [hb] at hb'; cases hb'
          · cases hi
      · intro hb'; rw [hb] at hb'; cases hb'
  · rw [finish_not_func w guest wi.exports imports e0 h0 hf] at hmain
    simp only [Flow.prepend] at hmain
    refine ⟨Or.inr ⟨_, hmain⟩, ?_, ?_, ?_, ?_⟩
    · intro hb'; rw [hb] at hb'; cases hb'
    · constructor
      · rintro ⟨T', hT'⟩; rw [hmain] at hT'; cases hT'
      · rintro ⟨hb', _⟩; rw [hb] at hb'; cases hb'
    · exact ⟨fun _ => Or.inl hb, fun _ => ⟨_, hmain⟩⟩
    · exact fun _ => export_check_events w guest wm wi imports T hreach hres hb

/-- Witness of C7 (amended): the guest importing `fd_write` and `proc_exit`
against the WASI provider, with an engine that accepts the table: `main`
returns 0 after instantiating the guest with `[provider[0], provider[1]]`. -/
theorem sequencer_after_resolution_witness :
    (((∃ T', main (world_of [0] guest_cube provider_wasi provider_wasi_instance true) =
          .exit 0 T') ∨
        (∃ T', main (world_of [0] guest_cube provider_wasi provider_wasi_instance true) =
          .exit 1 T')) ∧
      (first_export_is_func provider_wasi_instance.exports = true →
        Event.instance_new guest_cube (some [extern_func 0, extern_func 1]) ∈
          (main (world_of [0] guest_cube provider_wasi provider_wasi_instance true)).trace) ∧
      ((∃ T', main (world_of [0] guest_cube provider_wasi provider_wasi_instance true) =
          .exit 0 T') ↔
        (first_export_is_func provider_wasi_instance.exports = true ∧
          ∃ inst, (world_of [0] guest_cube provider_wasi provider_wasi_instance
            true).wasm_instance_new guest_cube (some [extern_func 0, extern_func 1]) =
              some inst)) ∧
      ((∃ T', main (world_of [0] guest_cube provider_wasi provider_wasi_instance true) =
          .exit 1 T') ↔
        (first_export_is_func provider_wasi_instance.exports = false ∨
          (world_of [0] guest_cube provider_wasi provider_wasi_instance
            true).wasm_instance_new guest_cube (some [extern_func 0, extern_func 1]) =
              none)) ∧
      (first_export_is_func provider_wasi_instance.exports = false →
        ∀ e ∈ (main (world_of [0] guest_cube provider_wasi provider_wasi_instance
          true)).trace, e.is_guest_instantiation = false)) ∧
    main (world_of [0] guest_cube provider_wasi provider_wasi_instance true) =
      .exit 0 (main (world_of [0] guest_cube provider_wasi provider_wasi_instance
        true)).trace :=
  ⟨sequencer_after_resolution (world_of [0] guest_cube provider_wasi provider_wasi_instance
      true) guest_cube provider_wasi provider_wasi_instance [extern_func 0, extern_func 1]
      (resolve_imports guest_cube.imports provider_wasi.exports
        provider_wasi_instance.exports).trace
      ⟨⟨[0], rfl, by decide, rfl, rfl, rfl⟩, by decide⟩ (by decide),
    by decide⟩

/-- C8: when the extern vector has at least as many entries as the export
descriptor vector, the loop ends (with the table, or returning 1) without an
access out of bounds, every read of `import_types`, `export_types`,
`wasi_exports` and every read or write of `imports` it performs is within
bounds, and it makes at most `len(imports) * len(exports)` name comparisons;
without the precondition, the import `proc_exit` against the export descriptors
`fd_write`, `proc_exit` and an extern vector of one entry makes the loop read
`wasi_exports.data[1]`, out of bounds. -/
theorem resolution_index_safety (its : List wasm_importtype_t)
    (ets : List wasm_exporttype_t) (wex : List (Option wasm_extern_t))
    (hcover : ets.length ≤ wex.length) :
    ((∃ imports T, resolve_imports its ets wex = .next imports T) ∨
      ∃ T, resolve_imports its ets wex = .exit 1 T) ∧
    (∀ e ∈ (resolve_imports its ets wex).trace,
      e.in_bounds its.length ets.length wex.length) ∧
    (resolve_imports its ets wex).trace.countP Event.is_compare ≤
      its.length * ets.length ∧
    ([extern_func 0].length < [export_fd_write, export_proc_exit].length ∧
      export_matches (wasm_importtype_name import_proc_exit)
        [export_fd_write, export_proc_exit] 1 = true ∧
      resolve_imports [import_proc_exit] [export_fd_write, export_proc_exit]
          [extern_func 0] =
        .fault [.load .import_types 0, .store .imports 0, .load .export_types 0,
          .compare (name_of "proc_exit") (name_of "fd_write"), .load .export_types 1,
          .compare (name_of "proc_exit") (name_of "proc_exit"),
          .load .wasi_exports 1]) := by
  refine ⟨?_, ?_, ?_, by decide⟩
  · rcases resolve_imports_cases its ets wex with ⟨_, h⟩ | ⟨_, _, _, _, h⟩ |
        ⟨i, _, _, ⟨it, j, _, hj, hv⟩, _⟩
    · exact Or.inl h
    · exact Or.inr h
    · have hjlt := export_matches_lt _ ets j hj.1
      rw [List.getElem?_eq_getElem (by omega)] at hv
      cases hv
  · intro e he
    exact Event.in_bounds_of_resolution _ _ _ hcover e
      (resolve_imports_events its ets wex e he)
  · have := outer_loop_compares its ets wex (List.range its.length)
      (List.replicate its.length none)
    rw [List.length_range] at this
    exact this

/-- Witness of C8: the imports `fd_write`, `proc_exit` against three exports
and three externs. -/
theorem resolution_index_safety_witness :
    ((∃ imports T, resolve_imports [import_fd_write, import_proc_exit]
        [export_fd_write, export_proc_exit, export_args_get]
        [extern_func 0, extern_func 1, extern_func 2] = .next imports T) ∨
      ∃ T, resolve_imports [import_fd_write, import_proc_exit]
        [export_fd_write, export_proc_exit, export_args_get]
        [extern_func 0, extern_func 1, extern_func 2] = .exit 1 T) ∧
    (∀ e ∈ (resolve_imports [import_fd_write, import_proc_exit]
        [export_fd_write, export_proc_exit, export_args_get]
        [extern_func 0, extern_func 1, extern_func 2]).trace,
      e.in_bounds [import_fd_write, import_proc_exit].length
        [export_fd_write, export_proc_exit, export_args_get].length
        [extern_func 0, extern_func 1, extern_func 2].length) ∧
    (resolve_imports [import_fd_write, import_proc_exit]
        [export_fd_write, export_proc_exit, export_args_get]
        [extern_func 0, extern_func 1, extern_func 2]).trace.countP Event.is_compare ≤
      [import_fd_write, import_proc_exit].length *
        [export_fd_write, export_proc_exit, export_args_get].length ∧
    ([extern_func 0].length < [export_fd_write, export_proc_exit].length ∧
      export_matches (wasm_importtype_name import_proc_exit)
        [export_fd_write, export_proc_exit] 1 = true ∧
      resolve_imports [import_proc_exit] [export_fd_write, export_proc_exit]
          [extern_func 0] =
        .fault [.load .import_types 0, .store .imports 0, .load .export_types 0,
          .compare (name_of "proc_exit") (name_of "fd_write"), .load .export_types 1,
          .compare (name_of "proc_exit") (name_of "proc_exit"),
          .load .wasi_exports 1]) :=
  resolution_index_safety [import_fd_write, import_proc_exit]
    [export_fd_write, export_proc_exit, export_args_get]
    [extern_func 0, extern_func 1, extern_func 2] (by decide)

/-- C9: for an import `i` in range of the table, (1) when its first
name-matching export position `j` holds `NULL`, the scan leaves `imports[i]`
`NULL`, the loop body reports the import as not found and returns 1 without
reading any export descriptor or extern value past `j` (whatever the exports
after `j` are), and so does the loop and `main` when the imports before `i`
are resolved; (2) the loop body reports the import as not found if and only if
no export name matches it or the extern value at its first matching export
position is `NULL`. -/
theorem null_first_match_not_found (its : List wasm_importtype_t)
    (ets : List wasm_exporttype_t) (wex : List (Option wasm_extern_t)) (i : Nat)
    (imports : List (Option wasm_extern_t)) (it : wasm_importtype_t)
    (hit : its[i]? = some it) (hi : i < imports.length) :
    (∀ j, is_first_match (wasm_importtype_name it) ets j → wex[j]? = some none →
      (∃ T, inner_loop (wasm_importtype_name it) ets wex i (imports.set i none)
          (List.range ets.length) = .next (imports.set i none) T) ∧
      (∃ T, import_step its ets wex i imports =
          .exit 1 (T ++ not_found_report (wasm_importtype_name it))) ∧
      (∀ e ∈ (import_step its ets wex i imports).trace, ∀ k,
        e = .load .export_types k ∨ e = .load .wasi_exports k → k ≤ j) ∧
      ((∀ x, x < i → import_resolved its ets wex x) →
        (∃ T, resolve_imports its ets wex =
          .exit 1 (T ++ not_found_report (wasm_importtype_name it))) ∧
        ∀ w guest wm wi, reaches_resolution w guest wm wi → guest.imports = its →
          wm.exports = ets → wi.exports = wex →
          ∃ T, main w = .exit 1 (T ++ not_found_report (wasm_importtype_name it)))) ∧
    ((∃ T, import_step its ets wex i imports =
        .exit 1 (T ++ not_found_report (wasm_importtype_name it))) ↔
      (no_match (wasm_importtype_name it) ets ∨
        ∃ j, is_first_match (wasm_importtype_name it) ets j ∧ wex[j]? = some none)) := by
  constructor
  · intro j hj hv
    refine ⟨?_, import_step_null its ets wex i imports it hit hi j hj hv,
      import_step_scan_bound its ets wex i imports it hit j hj, ?_⟩
    · have hi' : i < (imports.set i none).length := by simpa using hi
      rw [inner_loop_first_match _ ets wex i _ j hj, array_load_some _ _ _ _ hv]
      simp only [Flow.bind, Flow.prepend, array_store_lt _ _ _ _ hi', List.set_set]
      exact ⟨_, rfl⟩
    · intro hearlier
      have hilt : i < its.length := (List.getElem?_eq_some_iff.1 hit).1
      obtain ⟨it', T, hit', hT⟩ := resolve_imports_unresolved its ets wex i hilt hearlier
        ⟨it, hit, Or.inr ⟨j, hj, hv⟩⟩
      rw [hit] at hit'
      cases hit'
      refine ⟨⟨T, hT⟩, ?_⟩
      intro w guest wm wi hreach h1 h2 h3
      refine ⟨prologue wm ++ T, ?_⟩
      rw [main_of_reaches w guest wm wi hreach, h1, h2, h3, hT]
      simp [Flow.bind, Flow.prepend]
  · constructor
    · rintro ⟨T, hT⟩
      rcases no_match_or_first_match (wasm_importtype_name it) ets with hn | ⟨j, hj⟩
      · exact Or.inl hn
      · cases hv : wex[j]? with
        | none =>
          obtain ⟨T', hT'⟩ := import_step_oob its ets wex i imports it hit hi j hj hv
          rw [hT] at hT'; cases hT'
        | some p =>
          cases p with
          | none => exact Or.inr ⟨j, hj, hv⟩
          | some v =>
            obtain ⟨T', hT'⟩ := import_step_resolved its ets wex i imports it hit hi v
              ⟨j, hj, hv⟩
            rw [hT] at hT'; cases hT'
    · rintro (hn | ⟨j, hj, hv⟩)
      · exact import_step_no_match its ets wex i imports it hit hi hn
      · exact import_step_null its ets wex i imports it hit hi j hj hv

/-- Witness of C9: two exports are named `fd_write`; the extern at position 0
is `NULL` and the one at position 1 is not; the import `fd_write` is reported
as not found without position 1 being read. -/
theorem null_first_match_not_found_witness :
    ((∀ j, is_first_match (wasm_importtype_name import_fd_write)
          [export_fd_write, export_fd_write] j →
        [none, extern_func 1][j]? = some none →
        (∃ T, inner_loop (wasm_importtype_name import_fd_write)
            [export_fd_write, export_fd_write] [none, extern_func 1] 0 ([none].set 0 none)
            (List.range [export_fd_write, export_fd_write].length) =
              .next ([none].set 0 none) T) ∧
        (∃ T, import_step [import_fd_write] [export_fd_write, export_fd_write]
            [none, extern_func 1] 0 [none] =
            .exit 1 (T ++ not_found_report (wasm_importtype_name import_fd_write))) ∧
        (∀ e ∈ (import_step [import_fd_write] [export_fd_write, export_fd_write]
            [none, extern_func 1] 0 [none]).trace, ∀ k,
          e = .load .export_types k ∨ e = .load .wasi_exports k → k ≤ j) ∧
        ((∀ x, x < 0 → import_resolved [import_fd_write]
            [export_fd_write, export_fd_write] [none, extern_func 1] x) →
          (∃ T, resolve_imports [import_fd_write] [export_fd_write, export_fd_write]
              [none, extern_func 1] =
            .exit 1 (T ++ not_found_report (wasm_importtype_name import_fd_write))) ∧
          ∀ w guest wm wi, reaches_resolution w guest wm wi →
            guest.imports = [import_fd_write] →
            wm.exports = [export_fd_write, export_fd_write] →
            wi.exports = [none, extern_func 1] →
            ∃ T, main w =
              .exit 1 (T ++ not_found_report (wasm_importtype_name import_fd_write)))) ∧
      ((∃ T, import_step [import_fd_write] [export_fd_write, export_fd_write]
          [none, extern_func 1] 0 [none] =
          .exit 1 (T ++ not_found_report (wasm_importtype_name import_fd_write))) ↔
        (no_match (wasm_importtype_name import_fd_write)
            [export_fd_write, export_fd_write] ∨
          ∃ j, is_first_match (wasm_importtype_name import_fd_write)
            [export_fd_write, export_fd_write] j ∧
            [none, extern_func 1][j]? = some none))) ∧
    is_first_match (wasm_importtype_name import_fd_write)
      [export_fd_write, export_fd_write] 0 ∧
    import_step [import_fd_write] [export_fd_write, export_fd_write]
        [none, extern_func 1] 0 [none] =
      .exit 1 [.load .import_types 0, .store .imports 0, .load .export_types 0,
        .compare (name_of "fd_write") (name_of "fd_write"), .load .wasi_exports 0,
        .store .imports 0, .load .imports 0,
        .printf "> Import ", .print_name (name_of "fd_write"), .printf " not found\n"] :=
  ⟨null_first_match_not_found [import_fd_write] [export_fd_write, export_fd_write]
      [none, extern_func 1] 0 [none] import_fd_write rfl (by decide),
    by decide, by decide⟩

/-- C10: in a run that gets as far as extracting the WASI exports, (1) when
the WASI instance exposes zero exports `main` returns 1 having only printed
and instantiated the WASI module, with no import matching done, whatever the
guest's imports are; (2) when all imports resolve but the provider's export at
position 0 is not a function, `main` returns 1 right after reading that export,
without instantiating the guest. -/
theorem provider_prechecks (w : World) (guest wm : wasm_module_t) (wi : wasm_instance_t)
    (hreach : reaches_exports w guest wm wi) :
    (wi.exports.length = 0 →
      main w = .exit 1 (setup_events wm ++ [.printf "> Error accessing WASI exports!\n"]) ∧
      ∀ e ∈ (main w).trace, (∃ s, e = .printf s) ∨ e = .instance_new wm none) ∧
    (∀ (imports : List (Option wasm_extern_t)) (T : List Event),
      wi.exports.length ≠ 0 →
      resolve_imports guest.imports wm.exports wi.exports = .next imports T →
      first_export_is_func wi.exports = false →
      main w = .exit 1 (prologue wm ++ T ++
        [.load .wasi_exports 0, .printf "> Error accessing WASI export!\n"]) ∧
      ∀ e ∈ (main w).trace, e.is_guest_instantiation = false) := by
  constructor
  · intro h0
    have hmain : main w =
        .exit 1 (setup_events wm ++ [.printf "> Error accessing WASI exports!\n"]) := by
      unfold main
      rw [setup_of_reaches_exports w guest wm wi hreach, if_pos h0]
      rfl
    refine ⟨hmain, ?_⟩
    intro e he
    rw [hmain] at he
    simp only [Flow.trace, setup_events, List.cons_append, List.nil_append, List.mem_cons,
      List.mem_singleton, List.not_mem_nil, or_false] at he
    rcases he with he | he | he | he | he | he | he | he <;> subst he <;> simp
  · intro imports T hne hres hb
    have hr : reaches_resolution w guest wm wi := ⟨hreach, hne⟩
    rcases first_export_cases wi.exports hne with ⟨hb', _⟩ | ⟨_, e0, h0, hf⟩
    · rw [hb] at hb'; cases hb'
    · have hmain := main_of_resolved w guest wm wi imports T hr hres
      rw [finish_not_func w guest wi.exports imports e0 h0 hf] at hmain
      simp only [Flow.prepend] at hmain
      exact ⟨hmain, (export_check_events w guest wm wi imports T hr hres hb)⟩

/-- Witness of C10: a guest without imports and a WASI instance that exposes no
exports: `main` returns 1 before the matching starts. -/
theorem provider_prechecks_witness :
    ((instance_without_exports.exports.length = 0 →
        main (world_of [0] guest_without_imports provider_wasi instance_without_exports
            true) =
          .exit 1 (setup_events provider_wasi ++
            [.printf "> Error accessing WASI exports!\n"]) ∧
        ∀ e ∈ (main (world_of [0] guest_without_imports provider_wasi
            instance_without_exports true)).trace,
          (∃ s, e = .printf s) ∨ e = .instance_new provider_wasi none) ∧
      (∀ (imports : List (Option wasm_extern_t)) (T : List Event),
        instance_without_exports.exports.length ≠ 0 →
        resolve_imports guest_without_imports.imports provider_wasi.exports
          instance_without_exports.exports = .next imports T →
        first_export_is_func instance_without_exports.exports = false →
        main (world_of [0] guest_without_imports provider_wasi instance_without_exports
            true) =
          .exit 1 (prologue provider_wasi ++ T ++
            [.load .wasi_exports 0, .printf "> Error accessing WASI export!\n"]) ∧
        ∀ e ∈ (main (world_of [0] guest_without_imports provider_wasi
            instance_without_exports true)).trace, e.is_guest_instantiation = false)) ∧
    resolve_imports guest_without_imports.imports provider_wasi.exports
        instance_without_exports.exports = .next [] [] ∧
    main (world_of [0] guest_without_imports provider_wasi instance_without_exports true) =
      .exit 1 [.printf "Initializing...\n", .printf "Loading binary...\n",
        .printf "Compiling module...\n", .printf "WASI module...\n",
        .printf "Instantiating WASI module...\n", .instance_new provider_wasi none,
        .printf "Extracting WASI export...\n",
        .printf "> Error accessing WASI exports!\n"] :=
  ⟨provider_prechecks (world_of [0] guest_without_imports provider_wasi
      instance_without_exports true) guest_without_imports provider_wasi
      instance_without_exports ⟨[0], rfl, by decide, rfl, rfl, rfl⟩,
    by decide, by decide⟩

end RunCube
